import Mathlib

/-!
Verification of the focalboard data-migration module
(`server/services/store/sqlstore/data_migrations.go`).

The Go file contains two one-shot data migrations:

* `runUniqueIDsMigration`: finds groups of block rows sharing an ID,
  keeps the first row of each group and assigns fresh IDs to the rest,
  all inside one transaction guarded by a completion flag.
* `runCategoryUuidIdMigration`: unconditionally replaces every category
  ID (propagating the old→new mapping into `category_blocks.category_id`)
  and, independently, every `category_blocks.id`.

We embed the module shallowly: tables are lists of records, the SQL
`UPDATE ... WHERE col = old` statements become list maps, the system
settings store is an association list, and every fallible collaborator
(schema gate, settings read, BeginTx, scans, updates, commit) is given an
explicit fault oracle so that all error paths of the Go control flow are
represented.  Functions of the repository that are not part of the given
file (`GetSystemSetting`, `getBlocksWithSameID`, `replaceBlockID`,
`utils.NewID`, `model.BlockType2IDType`,
`ensureMigrationsAppliedUpToVersion`) are modelled from the spec, as
noted on each definition.
-/

namespace Focalboard

/-- A row of the `blocks` owner table; only the columns the migration
touches (`id`, `workspace_id`) plus the `type` column used to pick the
format of fresh identifiers are modelled. -/
structure Block where
  id : String
  workspaceID : String
  type : String
deriving DecidableEq, Repr

/-- A row of the `categories` owner table. -/
structure Category where
  id : String
deriving DecidableEq, Repr

/-- A row of the `category_blocks` dependent table: its own `id` column
and the `category_id` foreign-key column. -/
structure CategoryBlock where
  id : String
  categoryID : String
deriving DecidableEq, Repr

/-- The visible database state: the three data tables plus the system
settings key-value store that holds the completion flags. -/
structure DB where
  blocks : List Block
  categories : List Category
  categoryBlocks : List CategoryBlock
  settings : List (String × String)
deriving DecidableEq, Repr

def UniqueIDsMigrationKey : String := "UniqueIDsMigrationComplete"

def CategoryUUIDIDMigrationKey : String := "CategoryUuidIdMigrationComplete"

/-- Modelled from the Go standard library: `strconv.ParseBool` accepts
exactly `1, t, T, TRUE, true, True` and `0, f, F, FALSE, false, False`,
and errors on everything else. -/
def parseBool : String → Option Bool
  | "1" => some true
  | "t" => some true
  | "T" => some true
  | "true" => some true
  | "TRUE" => some true
  | "True" => some true
  | "0" => some false
  | "f" => some false
  | "F" => some false
  | "false" => some false
  | "FALSE" => some false
  | "False" => some false
  | _ => none

/-- The Go idiom `hasAlreadyRun, _ := strconv.ParseBool(setting)`:
the parse error is discarded, and a failed parse yields `false`. -/
def parseBoolOrFalse (s : String) : Bool :=
  (parseBool s).getD false

/-- Assignment `m[k] = v` on an association list: overwrite the existing
binding if the key is present, otherwise append a new binding.  This is
the embedding of a Go `map` write; later assignments to the same key
overwrite earlier ones. -/
def mapAssign (m : List (String × String)) (k v : String) : List (String × String) :=
  if m.any (fun p => p.1 = k) then
    m.map (fun p => if p.1 = k then (k, v) else p)
  else
    m ++ [(k, v)]

/-- Modelled from the spec: `GetSystemSetting` is not part of the given
file; §6 gives the contract `get(key) -> string-or-absent` and §4.2 says
an absent key reads as false, not an error, so an absent key is read as
the empty string (which no `parseBool` accepts). -/
def GetSystemSetting (settings : List (String × String)) (key : String) : String :=
  match settings.find? (fun p => p.1 = key) with
  | some p => p.2
  | none => ""

/-- Modelled from the spec: `setSystemSetting` is not part of the given
file; §6 gives the contract `set(tx, key, value)` on the key-value
system-setting store, embedded as an overwriting assignment. -/
def setSystemSetting (settings : List (String × String)) (key v : String) :
    List (String × String) :=
  mapAssign settings key v

/-- Modelled from the spec: `utils.IDTypeNone` is not part of the given
file; §4.3 describes it as "a neutral tag when no type applies". -/
def IDTypeNone : String := "none"

/-- Modelled from the spec: `model.BlockType2IDType` is not part of the
given file; §4.3 says the kind tag is "derived from the entity's type",
embedded as the type string itself. -/
def blockType2IDType (t : String) : String := t

/-- Modelled from the spec: `getBlocksWithSameID` is not part of the
given file; §4.4 says: list all entity rows, group by identifier, retain
only groups whose size exceeds one — i.e. it returns, in listing order,
exactly the rows whose identifier occurs more than once. -/
def getBlocksWithSameID (blocks : List Block) : List Block :=
  blocks.filter (fun b => 1 < blocks.countP (fun b2 => b2.id = b.id))

/-- Keys of a list in order of first appearance: the deterministic
refinement we pick for Go's (unspecified) map iteration order, matching
insertion order of `blocksByID` / `categoryIDs`. -/
def keysInOrder (l : List String) : List String :=
  l.foldl (fun acc x => if x ∈ acc then acc else acc ++ [x]) []

/-- The rows of the duplicate scan grouped per identifier, one group per
distinct identifier in first-appearance order; this is the embedding of
the Go `blocksByID` map (each group is built by `append`, hence in
listing order). -/
def groupedDuplicates (dups : List Block) : List (List Block) :=
  (keysInOrder (dups.map (fun b => b.id))).map
    (fun k => dups.filter (fun b => b.id = k))

/-- The blocks that receive a new identifier: for every group, every row
except the first (`if i == 0 { continue }` in the Go loop), in group
processing order. -/
def uniqueIDsTargets (dups : List Block) : List Block :=
  ((groupedDuplicates dups).map (fun g => g.drop 1)).flatten

/-- Modelled from the spec: `replaceBlockID` is not part of the given
file; §4.6 says the remapper updates the identifier column of the owner
table where it equals `old`, and the call site passes the row's
workspace ID, so the update matches on `(id, workspace_id)`. -/
def replaceBlockID (blocks : List Block) (oldID newID ws : String) : List Block :=
  blocks.map (fun b =>
    if b.id = oldID ∧ b.workspaceID = ws then
      { b with id := newID }
    else b)

/-- The identifiers the generator hands out for a target list starting
at counter value `ctr`: one fresh ID per target, tagged by the target's
block type (`utils.NewID(model.BlockType2IDType(block.Type))`). -/
def generatedIDs (gen : String → Nat → String) : List Block → Nat → List String
  | [], _ => []
  | t :: rest, ctr => gen (blockType2IDType t.type) ctr :: generatedIDs gen rest (ctr + 1)

/-- The inner loop of `runUniqueIDsMigration`: for each target block,
generate a fresh ID and call `replaceBlockID` on the transaction state.
`failAt = some (k, e)` makes the `k`-th replace call fail with error
`e`, mirroring a failing UPDATE.  Returns the result, the generator
counter after the run, and the number of queries issued. -/
def runReplacements (gen : String → Nat → String) (failAt : Option (Nat × String)) :
    List Block → List Block → Nat → Nat →
      Except (String × String) (List Block) × Nat × Nat
  | [], blocks, ctr, _ => (Except.ok blocks, ctr, 0)
  | t :: rest, blocks, ctr, i =>
    match failAt with
    | some je =>
      if je.1 = i then
        (Except.error (t.id, je.2), ctr + 1, 1)
      else
        match runReplacements gen failAt rest
            (replaceBlockID blocks t.id (gen (blockType2IDType t.type) ctr) t.workspaceID)
            (ctr + 1) (i + 1) with
        | (r, c, q) => (r, c, q + 1)
    | none =>
      match runReplacements gen none rest
          (replaceBlockID blocks t.id (gen (blockType2IDType t.type) ctr) t.workspaceID)
          (ctr + 1) (i + 1) with
      | (r, c, q) => (r, c, q + 1)

/-- Fault oracle for `runUniqueIDsMigration`: each field injects a
failure into the corresponding fallible step (`none` = the step
succeeds).  `replaceErrAt` fails the k-th `replaceBlockID` call. -/
structure UniqueFaults where
  gateErr : Option String
  getSettingErr : Option String
  beginTxErr : Option String
  scanErr : Option String
  replaceErrAt : Option (Nat × String)
  setSettingErr : Option String
  commitErr : Option String
deriving DecidableEq, Repr

def UFnone : UniqueFaults := ⟨none, none, none, none, none, none, none⟩

/-- Outcome of a migration run: the returned error (if any), the visible
database state afterwards (transaction writes are visible only after a
successful commit), whether a transaction was opened, committed, or
rolled back, the generator counter, and the number of queries issued
against the owner/dependent tables. -/
structure Outcome where
  res : Option String
  db : DB
  txOpened : Bool
  committed : Bool
  rolledBack : Bool
  ctr : Nat
  tableQueries : Nat
deriving DecidableEq, Repr

/-- Embedding of `runUniqueIDsMigration` (data_migrations.go, lines
22–87): gate check, completion-flag check, BeginTx, duplicate scan,
per-row replacement, completion-flag write, commit.  Every error branch
mirrors the Go code: which errors are wrapped, with which step name, and
whether `tx.Rollback()` is called. -/
def runUniqueIDsMigration (F : UniqueFaults) (gen : String → Nat → String)
    (ctr : Nat) (db : DB) : Outcome :=
  match F.gateErr with
  | some e => ⟨some e, db, false, false, false, ctr, 0⟩
  | none =>
  match F.getSettingErr with
  | some e => ⟨some ("cannot get migration state: " ++ e), db, false, false, false, ctr, 0⟩
  | none =>
  if parseBoolOrFalse (GetSystemSetting db.settings UniqueIDsMigrationKey) then
    ⟨none, db, false, false, false, ctr, 0⟩
  else
  match F.beginTxErr with
  | some e => ⟨some e, db, false, false, false, ctr, 0⟩
  | none =>
  match F.scanErr with
  | some e => ⟨some ("cannot get blocks with same ID: " ++ e), db, true, false, true, ctr, 1⟩
  | none =>
  match runReplacements gen F.replaceErrAt
      (uniqueIDsTargets (getBlocksWithSameID db.blocks)) db.blocks ctr 0 with
  | (Except.error be, c, q) =>
    ⟨some ("cannot replace blockID " ++ be.1 ++ ": " ++ be.2), db, true, false, true, c, q + 1⟩
  | (Except.ok blocks', c, q) =>
  match F.setSettingErr with
  | some e => ⟨some ("cannot mark migration as completed: " ++ e), db, true, false, true, c, q + 1⟩
  | none =>
  match F.commitErr with
  | some e => ⟨some ("cannot commit unique IDs transaction: " ++ e), db, true, false, false, c, q + 1⟩
  | none =>
    ⟨none,
     ⟨blocks', db.categories, db.categoryBlocks,
      setSystemSetting db.settings UniqueIDsMigrationKey "true"⟩,
     true, true, false, c, q + 1⟩

/-- Embedding of `getIDs` (lines 160–185): `SELECT id FROM table`
returns the identifier column of every row, in listing order. -/
def getIDs {α : Type} (rows : List α) (idOf : α → String) : List String :=
  rows.map idOf

/-- The map-building loop of `updateCategoryIDs` /
`updateCategoryBlocksIDs` (lines 142–146 and 234–238): for every listed
old identifier a fresh `utils.NewID(utils.IDTypeNone)` is generated and
assigned under the old identifier as key, a later assignment for a
repeated identifier overwriting the earlier one.  Returns the map and
the generator counter after the loop. -/
def buildIDMapLoop (gen : String → Nat → String) :
    List String → List (String × String) → Nat → List (String × String) × Nat
  | [], m, ctr => (m, ctr)
  | oldId :: rest, m, ctr =>
    buildIDMapLoop gen rest (mapAssign m oldId (gen IDTypeNone ctr)) (ctr + 1)

/-- The old→new map after the whole loop, starting from the empty map. -/
def buildIDMap (gen : String → Nat → String) (olds : List String) (ctr : Nat) :
    List (String × String) × Nat :=
  buildIDMapLoop gen olds [] ctr

/-- The identifiers `utils.NewID(utils.IDTypeNone)` hands out for `n`
consecutive calls starting at counter value `ctr`. -/
def genListNone (gen : String → Nat → String) : Nat → Nat → List String
  | _, 0 => []
  | ctr, n + 1 => gen IDTypeNone ctr :: genListNone gen (ctr + 1) n

/-- The value the Go loop leaves under key `x`: the fresh identifier of
the last occurrence of `x` in the listed identifiers (later assignments
overwrite earlier ones). -/
def lastAssign (gen : String → Nat → String) : List String → Nat → String → Option String
  | [], _, _ => none
  | o :: rest, ctr, x =>
    match lastAssign gen rest (ctr + 1) x with
    | some v => some v
    | none => if o = x then some (gen IDTypeNone ctr) else none

/-- Embedding of `updateCategoryID` (lines 187–224): one UPDATE setting
`categories.id = new WHERE id = old`, and one UPDATE setting
`category_blocks.category_id = new WHERE category_id = old`. -/
def updateCategoryID (cats : List Category) (cbs : List CategoryBlock)
    (oldID newID : String) : List Category × List CategoryBlock :=
  (cats.map (fun c => if c.id = oldID then { c with id := newID } else c),
   cbs.map (fun cb => if cb.categoryID = oldID then { cb with categoryID := newID } else cb))

/-- Embedding of `updateCategoryBlocksID` (lines 251–265): one UPDATE
setting `category_blocks.id = new WHERE id = old`. -/
def updateCategoryBlocksID (cbs : List CategoryBlock) (oldID newID : String) :
    List CategoryBlock :=
  cbs.map (fun cb => if cb.id = oldID then { cb with id := newID } else cb)

/-- The application loop of `updateCategoryIDs` (lines 151–155): one
`updateCategoryID` call per map entry.  `failAt = some (k, e)` fails the
`k`-th call with error `e` (returned raw, as in the Go code).  The
second component counts the queries issued (two per successful call). -/
def applyCategoryUpdates (failAt : Option (Nat × String)) :
    List (String × String) → List Category → List CategoryBlock → Nat →
      Except String (List Category × List CategoryBlock) × Nat
  | [], cats, cbs, _ => (Except.ok (cats, cbs), 0)
  | p :: rest, cats, cbs, i =>
    match failAt with
    | some je =>
      if je.1 = i then
        (Except.error je.2, 1)
      else
        match updateCategoryID cats cbs p.1 p.2 with
        | (cats', cbs') =>
          match applyCategoryUpdates failAt rest cats' cbs' (i + 1) with
          | (r, q) => (r, q + 2)
    | none =>
      match updateCategoryID cats cbs p.1 p.2 with
      | (cats', cbs') =>
        match applyCategoryUpdates none rest cats' cbs' (i + 1) with
        | (r, q) => (r, q + 2)

/-- The application loop of `updateCategoryBlocksIDs` (lines 243–247):
one `updateCategoryBlocksID` call per map entry, one query each. -/
def applyCategoryBlocksUpdates (failAt : Option (Nat × String)) :
    List (String × String) → List CategoryBlock → Nat →
      Except String (List CategoryBlock) × Nat
  | [], cbs, _ => (Except.ok cbs, 0)
  | p :: rest, cbs, i =>
    match failAt with
    | some je =>
      if je.1 = i then
        (Except.error je.2, 1)
      else
        match applyCategoryBlocksUpdates failAt rest (updateCategoryBlocksID cbs p.1 p.2) (i + 1) with
        | (r, q) => (r, q + 1)
    | none =>
      match applyCategoryBlocksUpdates none rest (updateCategoryBlocksID cbs p.1 p.2) (i + 1) with
      | (r, q) => (r, q + 1)

/-- Embedding of `updateCategoryIDs` (lines 134–158): list the category
IDs, build the old→new map, then apply `updateCategoryID` per entry.
`listErr` fails the `getIDs` query; errors are returned raw. -/
def updateCategoryIDs (gen : String → Nat → String) (listErr : Option String)
    (updErrAt : Option (Nat × String)) (cats : List Category)
    (cbs : List CategoryBlock) (ctr : Nat) :
    Except String (List Category × List CategoryBlock) × Nat × Nat :=
  match listErr with
  | some e => (Except.error e, ctr, 1)
  | none =>
    match buildIDMap gen (getIDs cats (fun c => c.id)) ctr with
    | (m, c) =>
      match applyCategoryUpdates updErrAt m cats cbs 0 with
      | (r, q) => (r, c, q + 1)

/-- Embedding of `updateCategoryBlocksIDs` (lines 226–249): list the
`category_blocks` IDs, build an independent old→new map, then apply
`updateCategoryBlocksID` per entry. -/
def updateCategoryBlocksIDs (gen : String → Nat → String) (listErr : Option String)
    (updErrAt : Option (Nat × String)) (cbs : List CategoryBlock) (ctr : Nat) :
    Except String (List CategoryBlock) × Nat × Nat :=
  match listErr with
  | some e => (Except.error e, ctr, 1)
  | none =>
    match buildIDMap gen (getIDs cbs (fun cb => cb.id)) ctr with
    | (m, c) =>
      match applyCategoryBlocksUpdates updErrAt m cbs 0 with
      | (r, q) => (r, c, q + 1)

/-- Fault oracle for `runCategoryUuidIdMigration`. -/
structure CatFaults where
  gateErr : Option String
  getSettingErr : Option String
  beginTxErr : Option String
  catListErr : Option String
  catUpdateErrAt : Option (Nat × String)
  cbListErr : Option String
  cbUpdateErrAt : Option (Nat × String)
  setSettingErr : Option String
  commitErr : Option String
deriving DecidableEq, Repr

def CFnone : CatFaults := ⟨none, none, none, none, none, none, none, none, none⟩

/-- Embedding of `runCategoryUuidIdMigration` (lines 89–132).  Note the
two branches that mirror lines 111–117 of the Go code: an error from
`updateCategoryIDs` or `updateCategoryBlocksIDs` is returned raw, with
no `tx.Rollback()` call and no wrapping; only the completion-flag write
rolls back, and commit errors are wrapped without rollback. -/
def runCategoryUuidIdMigration (F : CatFaults) (gen : String → Nat → String)
    (ctr : Nat) (db : DB) : Outcome :=
  match F.gateErr with
  | some e => ⟨some e, db, false, false, false, ctr, 0⟩
  | none =>
  match F.getSettingErr with
  | some e => ⟨some ("cannot get migration state: " ++ e), db, false, false, false, ctr, 0⟩
  | none =>
  if parseBoolOrFalse (GetSystemSetting db.settings CategoryUUIDIDMigrationKey) then
    ⟨none, db, false, false, false, ctr, 0⟩
  else
  match F.beginTxErr with
  | some e => ⟨some e, db, false, false, false, ctr, 0⟩
  | none =>
  match updateCategoryIDs gen F.catListErr F.catUpdateErrAt db.categories db.categoryBlocks ctr with
  | (Except.error e, c, q) => ⟨some e, db, true, false, false, c, q⟩
  | (Except.ok catscbs, c, q) =>
  match updateCategoryBlocksIDs gen F.cbListErr F.cbUpdateErrAt catscbs.2 c with
  | (Except.error e, c2, q2) => ⟨some e, db, true, false, false, c2, q + q2⟩
  | (Except.ok cbs2, c2, q2) =>
  match F.setSettingErr with
  | some e => ⟨some ("cannot mark migration as completed: " ++ e), db, true, false, true, c2, q + q2⟩
  | none =>
  match F.commitErr with
  | some e => ⟨some ("cannot commit category IDs transaction: " ++ e), db, true, false, false, c2, q + q2⟩
  | none =>
    ⟨none,
     ⟨db.blocks, catscbs.1, cbs2,
      setSystemSetting db.settings CategoryUUIDIDMigrationKey "true"⟩,
     true, true, false, c2, q + q2⟩

/-! Generic machinery used to characterize the update loops: an
association-list substitution and a keyed bulk update. -/

/-- Substitute along an association list: the first binding of `k`
wins, and an unbound key is left unchanged. -/
def assocSubst {κ : Type} [DecidableEq κ] (σ : List (κ × κ)) (k : κ) : κ :=
  match σ.find? (fun e => e.1 = k) with
  | some e => e.2
  | none => k

/-- An SQL `UPDATE t SET key = new WHERE key = old` on a list of rows,
abstracted over the key projection `get` and key replacement `set`. -/
def updateWhere {α κ : Type} [DecidableEq κ] (get : α → κ) (set : α → κ → α)
    (rows : List α) (oldK newK : κ) : List α :=
  rows.map (fun r => if get r = oldK then set r newK else r)

/-- Sequential application of a list of `(old, new)` pairs by
`updateWhere`, the shape shared by all three update loops. -/
def applyMapField {α κ : Type} [DecidableEq κ] (get : α → κ) (set : α → κ → α) :
    List (κ × κ) → List α → List α
  | [], rows => rows
  | p :: rest, rows => applyMapField get set rest (updateWhere get set rows p.1 p.2)

/-- The key a `replaceBlockID` UPDATE matches on: the `(id,
workspace_id)` column pair. -/
def blockKey (b : Block) : String × String := (b.id, b.workspaceID)

def setBlockKey (b : Block) (p : String × String) : Block := ⟨p.1, p.2, b.type⟩

/-- The `(old key, new key)` pairs realized by the unique-IDs
replacement loop on target list `ts` with generator counter `ctr`. -/
def uniquePairs (gen : String → Nat → String) (ts : List Block) (ctr : Nat) :
    List ((String × String) × (String × String)) :=
  (ts.zip (generatedIDs gen ts ctr)).map (fun p => (blockKey p.1, (p.2, p.1.workspaceID)))

/-- The rows of `bs` sharing identifier `X`, in listing order: the
duplicate group of `X` (of size > 1 exactly when `X` is duplicated). -/
def grp (bs : List Block) (X : String) : List Block :=
  bs.filter (fun b => b.id = X)

/-- Pairwise distinctness of the `(id, workspace_id)` column pairs of
the blocks table: the primary-key shape the migration relies on (block
IDs may collide, but only across workspaces). -/
def KeysDistinct (bs : List Block) : Prop :=
  bs.Pairwise (fun a b => blockKey a ≠ blockKey b)

/-- The `(old, new)` key pairs of a migration on table `bs`. -/
def uniqueSigma (gen : String → Nat → String) (bs : List Block) (ctr : Nat) :
    List ((String × String) × (String × String)) :=
  uniquePairs gen (uniqueIDsTargets (getBlocksWithSameID bs)) ctr

/-- The remapping pairs of phase one (category IDs) of the category
migration. -/
def catSigma (gen : String → Nat → String) (ctr : Nat) (db : DB) : List (String × String) :=
  (buildIDMap gen (getIDs db.categories (fun c => c.id)) ctr).1

/-- The remapping pairs of phase two (category_blocks own IDs): an
independent map over the dependent table's own identifier space, built
after the generator consumed one identifier per category row. -/
def cbSigma (gen : String → Nat → String) (ctr : Nat) (db : DB) : List (String × String) :=
  (buildIDMap gen (getIDs db.categoryBlocks (fun cb => cb.id))
    (ctr + db.categories.length)).1

def UFgate (e : String) : UniqueFaults := ⟨some e, none, none, none, none, none, none⟩

def UFgetSetting (e : String) : UniqueFaults := ⟨none, some e, none, none, none, none, none⟩

def UFbeginTx (e : String) : UniqueFaults := ⟨none, none, some e, none, none, none, none⟩

def UFscan (e : String) : UniqueFaults := ⟨none, none, none, some e, none, none, none⟩

def UFreplace (k : Nat) (e : String) : UniqueFaults :=
  ⟨none, none, none, none, some (k, e), none, none⟩

def UFsetSetting (e : String) : UniqueFaults := ⟨none, none, none, none, none, some e, none⟩

def UFcommit (e : String) : UniqueFaults := ⟨none, none, none, none, none, none, some e⟩

def CFgate (e : String) : CatFaults := ⟨some e, none, none, none, none, none, none, none, none⟩

def CFgetSetting (e : String) : CatFaults :=
  ⟨none, some e, none, none, none, none, none, none, none⟩

def CFbeginTx (e : String) : CatFaults :=
  ⟨none, none, some e, none, none, none, none, none, none⟩

def CFcatList (e : String) : CatFaults :=
  ⟨none, none, none, some e, none, none, none, none, none⟩

def CFcatUpdate (k : Nat) (e : String) : CatFaults :=
  ⟨none, none, none, none, some (k, e), none, none, none, none⟩

def CFcbList (e : String) : CatFaults :=
  ⟨none, none, none, none, none, some e, none, none, none⟩

def CFcbUpdate (k : Nat) (e : String) : CatFaults :=
  ⟨none, none, none, none, none, none, some (k, e), none, none⟩

def CFsetSetting (e : String) : CatFaults :=
  ⟨none, none, none, none, none, none, none, some e, none⟩

def CFcommit (e : String) : CatFaults :=
  ⟨none, none, none, none, none, none, none, none, some e⟩

/-- A concrete generator for witnesses: distinct values on the counters
a witness run consumes. -/
def genW : String → Nat → String := fun _ n =>
  match n with
  | 0 => "g0"
  | 1 => "g1"
  | 2 => "g2"
  | 3 => "g3"
  | 4 => "g4"
  | _ => "gZ"

/-- A concrete witness database: a duplicate block-ID pair across two
workspaces plus a singleton, a duplicated category identifier, and two
dependent rows with intact foreign keys. -/
def dbW : DB :=
  ⟨[⟨"a", "w1", "card"⟩, ⟨"a", "w2", "card"⟩, ⟨"b", "w3", "card"⟩],
   [⟨"c1"⟩, ⟨"c1"⟩, ⟨"c2"⟩],
   [⟨"d1", "c1"⟩, ⟨"d2", "c2"⟩],
   []⟩

theorem assocSubst_of_not_mem {κ : Type} [DecidableEq κ] (σ : List (κ × κ)) (k : κ)
    (h : k ∉ σ.map (fun p => p.1)) : assocSubst σ k = k := by
  unfold assocSubst
  have hf : σ.find? (fun e => e.1 = k) = none := by
    rw [List.find?_eq_none]
    intro x hx
    simp only [decide_eq_true_eq]
    intro hk
    exact h (List.mem_map.mpr ⟨x, hx, hk⟩)
  rw [hf]

theorem assocSubst_cons_self {κ : Type} [DecidableEq κ] (p : κ × κ) (σ : List (κ × κ)) :
    assocSubst (p :: σ) p.1 = p.2 := by
  unfold assocSubst
  rw [List.find?_cons_of_pos]
  simp

theorem assocSubst_cons_ne {κ : Type} [DecidableEq κ] (p : κ × κ) (σ : List (κ × κ))
    (k : κ) (h : p.1 ≠ k) : assocSubst (p :: σ) k = assocSubst σ k := by
  unfold assocSubst
  rw [List.find?_cons_of_neg]
  simp [h]

/-- Master characterization: when the pair keys are distinct and no new
key collides with an old key, applying the pairs sequentially equals a
single pointwise substitution.  This is the heart of all "each row ends
up with its remapped key" arguments. -/
theorem applyMapField_eq {α κ : Type} [DecidableEq κ] (get : α → κ) (set : α → κ → α)
    (hsg : ∀ r k, get (set r k) = k) (hgs : ∀ r, set r (get r) = r)
    (hss : ∀ r k k2, set (set r k) k2 = set r k2)
    (σ : List (κ × κ)) (rows : List α)
    (hnd : (σ.map (fun p => p.1)).Nodup)
    (hdisj : ∀ v ∈ σ.map (fun p => p.2), v ∉ σ.map (fun p => p.1)) :
    applyMapField get set σ rows = rows.map (fun r => set r (assocSubst σ (get r))) := by
  induction σ generalizing rows with
  | nil =>
    simp only [applyMapField]
    have : ∀ r, set r (assocSubst [] (get r)) = r := by
      intro r
      rw [assocSubst_of_not_mem]
      · exact hgs r
      · simp
    simp [this]
  | cons p rest ih =>
    have hndr : (rest.map (fun p => p.1)).Nodup := by
      simpa using hnd.of_cons
    have hdisjr : ∀ v ∈ rest.map (fun p => p.2), v ∉ rest.map (fun p => p.1) := by
      intro v hv hv2
      exact hdisj v (by simp [hv]) (by simp [hv2])
    simp only [applyMapField]
    rw [ih _ hndr hdisjr, updateWhere, List.map_map]
    apply List.map_congr_left
    intro r _
    simp only [Function.comp]
    by_cases h : get r = p.1
    · have hp2rest : p.2 ∉ rest.map (fun p => p.1) := by
        intro hm
        exact hdisj p.2 (by simp) (by simp [hm])
      have hp2self : p.2 ≠ p.1 := by
        intro he
        exact hdisj p.2 (by simp) (by simp [he])
      rw [if_pos h, hsg, assocSubst_of_not_mem rest p.2 hp2rest, hss, h, assocSubst_cons_self]
    · simp only [if_neg h]
      rw [assocSubst_cons_ne p rest (get r) (fun he => h he.symm)]

/-- Looking up the key of the `i`-th pair returns the `i`-th new value,
provided the keys are distinct. -/
theorem assocSubst_get {κ : Type} [DecidableEq κ] (σ : List (κ × κ))
    (hnd : (σ.map (fun p => p.1)).Nodup) (i : Fin σ.length) :
    assocSubst σ (σ.get i).1 = (σ.get i).2 := by
  induction σ with
  | nil => exact absurd i.isLt (by simp)
  | cons p rest ih =>
    match i with
    | ⟨0, _⟩ => exact assocSubst_cons_self p rest
    | ⟨j + 1, hj⟩ =>
      have hjr : j < rest.length := by simpa using hj
      have hmem : ((rest.get ⟨j, hjr⟩).1 : κ) ∈ rest.map (fun p => p.1) :=
        List.mem_map.mpr ⟨rest.get ⟨j, hjr⟩, List.get_mem rest j hjr, rfl⟩
      have hhead : p.1 ∉ rest.map (fun p => p.1) := by
        have h2 := hnd
        simp only [List.map_cons, List.nodup_cons] at h2
        exact h2.1
      have hne : p.1 ≠ (rest.get ⟨j, hjr⟩).1 := by
        intro he
        exact hhead (he ▸ hmem)
      have : assocSubst (p :: rest) ((p :: rest).get ⟨j + 1, hj⟩).1 =
          assocSubst rest (rest.get ⟨j, hjr⟩).1 := by
        exact assocSubst_cons_ne p rest _ hne
      rw [this, ih (by simpa using hnd.of_cons) ⟨j, hjr⟩]
      rfl

theorem generatedIDs_length (gen : String → Nat → String) (ts : List Block) (ctr : Nat) :
    (generatedIDs gen ts ctr).length = ts.length := by
  induction ts generalizing ctr with
  | nil => rfl
  | cons t rest ih => simp [generatedIDs, ih]

theorem generatedIDs_getElem (gen : String → Nat → String) (ts : List Block) (ctr : Nat)
    (j : Nat) (hj : j < ts.length) (hj2 : j < (generatedIDs gen ts ctr).length) :
    (generatedIDs gen ts ctr)[j] = gen (blockType2IDType ts[j].type) (ctr + j) := by
  induction ts generalizing ctr j with
  | nil => exact absurd hj (by simp)
  | cons t rest ih =>
    match j with
    | 0 => simp [generatedIDs]
    | j + 1 =>
      have hr : j < rest.length := by simpa using hj
      have hr2 : j < (generatedIDs gen rest (ctr + 1)).length := by
        rw [generatedIDs_length]; exact hr
      simp only [generatedIDs, List.getElem_cons_succ]
      rw [ih (ctr + 1) j hr hr2]
      congr 1
      omega

theorem mem_generatedIDs {gen : String → Nat → String} {ts : List Block} {ctr : Nat}
    {x : String} (h : x ∈ generatedIDs gen ts ctr) :
    ∃ j, ∃ hj : j < ts.length, x = gen (blockType2IDType ts[j].type) (ctr + j) := by
  obtain ⟨j, hj, hx⟩ := List.getElem_of_mem h
  rw [generatedIDs_length] at hj
  exact ⟨j, hj, by rw [← hx, generatedIDs_getElem gen ts ctr j hj (by rw [generatedIDs_length]; exact hj)]⟩

theorem replaceBlockID_eq_updateWhere (blocks : List Block) (oldID newID ws : String) :
    replaceBlockID blocks oldID newID ws =
      updateWhere blockKey setBlockKey blocks (oldID, ws) (newID, ws) := by
  unfold replaceBlockID updateWhere
  apply List.map_congr_left
  intro b _
  by_cases h1 : b.id = oldID
  · by_cases h2 : b.workspaceID = ws
    · simp [blockKey, setBlockKey, Prod.ext_iff, h1, h2]
    · simp [blockKey, Prod.ext_iff, h1, h2]
  · simp [blockKey, Prod.ext_iff, h1]

theorem uniquePairs_cons (gen : String → Nat → String) (t : Block) (rest : List Block)
    (ctr : Nat) :
    uniquePairs gen (t :: rest) ctr =
      (blockKey t, (gen (blockType2IDType t.type) ctr, t.workspaceID)) ::
        uniquePairs gen rest (ctr + 1) := by
  simp [uniquePairs, generatedIDs]

/-- The fault-free replacement loop is the sequential application of
`uniquePairs`, consuming one generator value and one query per target. -/
theorem runReplacements_none_eq (gen : String → Nat → String) (ts blocks : List Block)
    (ctr i : Nat) :
    runReplacements gen none ts blocks ctr i =
      (Except.ok (applyMapField blockKey setBlockKey (uniquePairs gen ts ctr) blocks),
       ctr + ts.length, ts.length) := by
  induction ts generalizing blocks ctr i with
  | nil => simp [runReplacements, uniquePairs, generatedIDs, applyMapField]
  | cons t rest ih =>
    simp only [runReplacements, ih, uniquePairs_cons, applyMapField,
      replaceBlockID_eq_updateWhere, List.length_cons, Prod.mk.injEq]
    exact ⟨rfl, by omega, trivial⟩

/-- A failure injected at the `k`-th replacement call surfaces the
`k`-th target's (pre-migration) identifier in the error. -/
theorem runReplacements_fail (gen : String → Nat → String) (e : String)
    (ts blocks : List Block) (ctr i k : Nat) (hk : k < ts.length) :
    (runReplacements gen (some (i + k, e)) ts blocks ctr i).1 =
      Except.error ((ts.get ⟨k, hk⟩).id, e) := by
  induction ts generalizing blocks ctr i k with
  | nil => exact absurd hk (by simp)
  | cons t rest ih =>
    match k with
    | 0 => simp [runReplacements]
    | k + 1 =>
      have hkr : k < rest.length := by simpa using hk
      have hne : ¬ (i + (k + 1) = i) := by omega
      have harith : (i + 1) + k = i + (k + 1) := by omega
      rcases hrr : runReplacements gen (some (i + (k + 1), e)) rest
          (replaceBlockID blocks t.id (gen (blockType2IDType t.type) ctr) t.workspaceID)
          (ctr + 1) (i + 1) with ⟨r, c, q⟩
      have h1 : r = Except.error ((rest.get ⟨k, hkr⟩).id, e) := by
        have h2 := ih (replaceBlockID blocks t.id (gen (blockType2IDType t.type) ctr)
          t.workspaceID) (ctr + 1) (i + 1) k hkr
        rw [harith, hrr] at h2
        exact h2
      simp only [runReplacements, if_neg hne, hrr, h1]
      rfl


theorem KeysDistinct.nodup {bs : List Block} (h : KeysDistinct bs) : bs.Nodup :=
  h.imp (fun hab => fun he => hab (by rw [he]))

theorem KeysDistinct.key_inj {bs : List Block} (h : KeysDistinct bs) {a b : Block}
    (ha : a ∈ bs) (hb : b ∈ bs) (hk : blockKey a = blockKey b) : a = b := by
  by_contra hne
  have hsym : Symmetric (fun a b : Block => blockKey a ≠ blockKey b) := by
    intro x y hxy he
    exact hxy he.symm
  exact h.forall hsym ha hb hne hk

theorem mem_grp {bs : List Block} {X : String} {b : Block} :
    b ∈ grp bs X ↔ b ∈ bs ∧ b.id = X := by
  simp [grp]

theorem mem_getBlocksWithSameID {bs : List Block} {b : Block} :
    b ∈ getBlocksWithSameID bs ↔ b ∈ bs ∧ 1 < (grp bs b.id).length := by
  simp [getBlocksWithSameID, grp, List.countP_eq_length_filter]

theorem dups_filter_eq_grp (bs : List Block) (X : String) (hX : 1 < (grp bs X).length) :
    (getBlocksWithSameID bs).filter (fun b => b.id = X) = grp bs X := by
  unfold getBlocksWithSameID grp
  rw [List.filter_filter]
  apply List.filter_congr
  intro b _
  by_cases h : b.id = X
  · have hcnt : bs.countP (fun b2 => b2.id = X) = (grp bs X).length := by
      rw [List.countP_eq_length_filter]
      rfl
    simp [h, hcnt, hX]
  · simp [h]

theorem keysInOrder_loop_mem (l acc : List String) (x : String) :
    x ∈ l.foldl (fun acc x => if x ∈ acc then acc else acc ++ [x]) acc ↔
      x ∈ acc ∨ x ∈ l := by
  induction l generalizing acc with
  | nil => simp
  | cons a rest ih =>
    simp only [List.foldl_cons, List.mem_cons]
    by_cases h : a ∈ acc
    · rw [if_pos h, ih]
      constructor
      · rintro (hx | hx)
        · exact Or.inl hx
        · exact Or.inr (Or.inr hx)
      · rintro (hx | hx | hx)
        · exact Or.inl hx
        · exact Or.inl (hx ▸ h)
        · exact Or.inr hx
    · rw [if_neg h, ih]
      simp only [List.mem_append, List.mem_singleton]
      tauto

theorem mem_keysInOrder {l : List String} {x : String} :
    x ∈ keysInOrder l ↔ x ∈ l := by
  unfold keysInOrder
  rw [keysInOrder_loop_mem]
  simp

theorem keysInOrder_loop_nodup (l acc : List String) (hacc : acc.Nodup) :
    (l.foldl (fun acc x => if x ∈ acc then acc else acc ++ [x]) acc).Nodup := by
  induction l generalizing acc with
  | nil => simpa
  | cons a rest ih =>
    simp only [List.foldl_cons]
    by_cases h : a ∈ acc
    · rw [if_pos h]
      exact ih acc hacc
    · rw [if_neg h]
      refine ih _ (List.nodup_append.mpr ⟨hacc, by simp, ?_⟩)
      intro x hx
      simp only [List.mem_singleton]
      intro he
      exact h (he ▸ hx)

theorem keysInOrder_nodup (l : List String) : (keysInOrder l).Nodup :=
  keysInOrder_loop_nodup l [] (by simp)

/-- Membership in the target list: exactly the non-first rows of the
duplicate groups. -/
theorem mem_uniqueIDsTargets {bs : List Block} {t : Block} :
    t ∈ uniqueIDsTargets (getBlocksWithSameID bs) ↔
      1 < (grp bs t.id).length ∧ t ∈ (grp bs t.id).drop 1 := by
  unfold uniqueIDsTargets groupedDuplicates
  rw [List.mem_flatten]
  constructor
  · rintro ⟨gd, hgd, htgd⟩
    rw [List.mem_map] at hgd
    obtain ⟨g, hg, rfl⟩ := hgd
    rw [List.mem_map] at hg
    obtain ⟨k, hk, rfl⟩ := hg
    have htd : t ∈ (getBlocksWithSameID bs).filter (fun b => b.id = k) :=
      List.mem_of_mem_drop htgd
    have htk : t.id = k := by
      have := List.mem_filter.mp htd
      simpa using this.2
    have htdup : t ∈ getBlocksWithSameID bs := (List.mem_filter.mp htd).1
    have hgt : 1 < (grp bs t.id).length := (mem_getBlocksWithSameID.mp htdup).2
    refine ⟨hgt, ?_⟩
    subst htk
    rw [dups_filter_eq_grp bs t.id hgt] at htgd
    exact htgd
  · rintro ⟨hgt, ht⟩
    refine ⟨((getBlocksWithSameID bs).filter (fun b => b.id = t.id)).drop 1, ?_, ?_⟩
    · rw [List.mem_map]
      refine ⟨(getBlocksWithSameID bs).filter (fun b => b.id = t.id), ?_, rfl⟩
      rw [List.mem_map]
      refine ⟨t.id, ?_, rfl⟩
      rw [mem_keysInOrder, List.mem_map]
      have htg : t ∈ grp bs t.id := List.mem_of_mem_drop ht
      exact ⟨t, mem_getBlocksWithSameID.mpr ⟨(mem_grp.mp htg).1, hgt⟩, rfl⟩
    · rw [dups_filter_eq_grp bs t.id hgt]
      exact ht

theorem uniqueIDsTargets_subset {bs : List Block} {t : Block}
    (h : t ∈ uniqueIDsTargets (getBlocksWithSameID bs)) : t ∈ bs := by
  have := (mem_uniqueIDsTargets.mp h).2
  exact (mem_grp.mp (List.mem_of_mem_drop this)).1

/-- Under the primary-key invariant the target list has no duplicates. -/
theorem uniqueIDsTargets_nodup {bs : List Block} (hkd : KeysDistinct bs) :
    (uniqueIDsTargets (getBlocksWithSameID bs)).Nodup := by
  unfold uniqueIDsTargets groupedDuplicates
  rw [List.nodup_flatten]
  constructor
  · intro l hl
    rw [List.mem_map] at hl
    obtain ⟨g, hg, rfl⟩ := hl
    rw [List.mem_map] at hg
    obtain ⟨k, _, rfl⟩ := hg
    exact ((hkd.nodup.filter _).filter _).drop
  · rw [List.pairwise_map, List.pairwise_map]
    have hknd := keysInOrder_nodup ((getBlocksWithSameID bs).map (fun b => b.id))
    refine List.Pairwise.imp ?_ (List.Nodup.pairwise_of_forall_ne hknd (fun a _ b _ h => h))
    intro k1 k2 hne x hx1 hx2
    have h1 : x.id = k1 := by
      have := List.mem_filter.mp (List.mem_of_mem_drop hx1)
      simpa using this.2
    have h2 : x.id = k2 := by
      have := List.mem_filter.mp (List.mem_of_mem_drop hx2)
      simpa using this.2
    exact hne (h1 ▸ h2)

theorem blockKey_setBlockKey (b : Block) (p : String × String) :
    blockKey (setBlockKey b p) = p := rfl

theorem setBlockKey_blockKey (b : Block) : setBlockKey b (blockKey b) = b := rfl

theorem setBlockKey_setBlockKey (b : Block) (p q : String × String) :
    setBlockKey (setBlockKey b p) q = setBlockKey b q := rfl

theorem uniquePairs_keys (gen : String → Nat → String) (ts : List Block) (ctr : Nat) :
    (uniquePairs gen ts ctr).map (fun p => p.1) = ts.map blockKey := by
  induction ts generalizing ctr with
  | nil => simp [uniquePairs]
  | cons t rest ih => simp [uniquePairs_cons, ih]

theorem uniquePairs_values {gen : String → Nat → String} {ts : List Block} {ctr : Nat}
    {v : String × String} (hv : v ∈ (uniquePairs gen ts ctr).map (fun p => p.2)) :
    v.1 ∈ generatedIDs gen ts ctr := by
  induction ts generalizing ctr with
  | nil => simp [uniquePairs] at hv
  | cons t rest ih =>
    rw [uniquePairs_cons] at hv
    simp only [List.map_cons, List.mem_cons] at hv
    rcases hv with hv | hv
    · rw [hv]
      simp [generatedIDs]
    · simp only [generatedIDs, List.mem_cons]
      exact Or.inr (ih hv)


/-- Key-distinctness of the pair list produced by a run on a table
satisfying the primary-key invariant, with a fresh generator. -/
theorem uniqueSigma_nodup_keys {gen : String → Nat → String} {bs : List Block} {ctr : Nat}
    (hkd : KeysDistinct bs) :
    ((uniqueSigma gen bs ctr).map (fun p => p.1)).Nodup := by
  rw [uniqueSigma, uniquePairs_keys]
  refine List.Nodup.map_on ?_ (uniqueIDsTargets_nodup hkd)
  intro a ha b hb hab
  exact hkd.key_inj (uniqueIDsTargets_subset ha) (uniqueIDsTargets_subset hb) hab

theorem uniqueSigma_disj {gen : String → Nat → String} {bs : List Block} {ctr : Nat}
    (hfresh : ∀ x ∈ generatedIDs gen (uniqueIDsTargets (getBlocksWithSameID bs)) ctr,
      x ∉ bs.map (fun b => b.id)) :
    ∀ v ∈ (uniqueSigma gen bs ctr).map (fun p => p.2),
      v ∉ (uniqueSigma gen bs ctr).map (fun p => p.1) := by
  intro v hv hvk
  rw [uniqueSigma, uniquePairs_keys] at hvk
  rw [List.mem_map] at hvk
  obtain ⟨t, ht, hbk⟩ := hvk
  have hv1 : v.1 ∈ generatedIDs gen (uniqueIDsTargets (getBlocksWithSameID bs)) ctr :=
    uniquePairs_values hv
  have : v.1 = t.id := by
    rw [← hbk]
    rfl
  exact hfresh v.1 hv1 (List.mem_map.mpr ⟨t, uniqueIDsTargets_subset ht, this.symm⟩)

/-- Characterization of a fault-free unique-IDs run on a not-yet-migrated
database: it commits, writes the flag, and replaces each block's key by
its `uniqueSigma` substitution. -/
theorem runU_none_success (gen : String → Nat → String) (ctr : Nat) (db : DB)
    (hflag : parseBoolOrFalse (GetSystemSetting db.settings UniqueIDsMigrationKey) = false)
    (hkd : KeysDistinct db.blocks)
    (hfresh : ∀ x ∈ generatedIDs gen (uniqueIDsTargets (getBlocksWithSameID db.blocks)) ctr,
      x ∉ db.blocks.map (fun b => b.id)) :
    runUniqueIDsMigration UFnone gen ctr db =
      ⟨none,
       ⟨db.blocks.map (fun b => setBlockKey b (assocSubst (uniqueSigma gen db.blocks ctr) (blockKey b))),
        db.categories, db.categoryBlocks,
        setSystemSetting db.settings UniqueIDsMigrationKey "true"⟩,
       true, true, false,
       ctr + (uniqueIDsTargets (getBlocksWithSameID db.blocks)).length,
       (uniqueIDsTargets (getBlocksWithSameID db.blocks)).length + 1⟩ := by
  have happ := applyMapField_eq blockKey setBlockKey blockKey_setBlockKey setBlockKey_blockKey
    setBlockKey_setBlockKey (uniqueSigma gen db.blocks ctr) db.blocks
    (uniqueSigma_nodup_keys hkd) (uniqueSigma_disj hfresh)
  rw [uniqueSigma] at happ
  simp only [runUniqueIDsMigration, UFnone, hflag, Bool.false_eq_true, if_false,
    runReplacements_none_eq, happ]
  rfl

theorem uniqueSigma_length (gen : String → Nat → String) (bs : List Block) (ctr : Nat) :
    (uniqueSigma gen bs ctr).length = (uniqueIDsTargets (getBlocksWithSameID bs)).length := by
  simp [uniqueSigma, uniquePairs, generatedIDs_length]

theorem uniqueSigma_get (gen : String → Nat → String) (bs : List Block) (ctr : Nat)
    (j : Nat) (hj : j < (uniqueIDsTargets (getBlocksWithSameID bs)).length) :
    (uniqueSigma gen bs ctr).get ⟨j, by rw [uniqueSigma_length]; exact hj⟩ =
      (blockKey ((uniqueIDsTargets (getBlocksWithSameID bs)).get ⟨j, hj⟩),
       ((generatedIDs gen (uniqueIDsTargets (getBlocksWithSameID bs)) ctr).get
          ⟨j, by rw [generatedIDs_length]; exact hj⟩,
        ((uniqueIDsTargets (getBlocksWithSameID bs)).get ⟨j, hj⟩).workspaceID)) := by
  simp [uniqueSigma, uniquePairs, List.get_eq_getElem, List.getElem_zip]

/-- A non-target row keeps its key. -/
theorem assocSubst_uniqueSigma_nontarget (gen : String → Nat → String) {bs : List Block}
    (ctr : Nat) (hkd : KeysDistinct bs) {b : Block} (hb : b ∈ bs)
    (hnt : b ∉ uniqueIDsTargets (getBlocksWithSameID bs)) :
    assocSubst (uniqueSigma gen bs ctr) (blockKey b) = blockKey b := by
  apply assocSubst_of_not_mem
  rw [uniqueSigma, uniquePairs_keys]
  intro hmem
  rw [List.mem_map] at hmem
  obtain ⟨t, ht, he⟩ := hmem
  exact hnt ((hkd.key_inj (uniqueIDsTargets_subset ht) hb he) ▸ ht)

/-- A target row's key is replaced by the generated identifier at its
position in the target list (keeping its workspace). -/
theorem assocSubst_uniqueSigma_target (gen : String → Nat → String) {bs : List Block}
    (ctr : Nat) (hkd : KeysDistinct bs) {t : Block}
    (ht : t ∈ uniqueIDsTargets (getBlocksWithSameID bs)) :
    ∃ j, ∃ hj : j < (uniqueIDsTargets (getBlocksWithSameID bs)).length,
      (uniqueIDsTargets (getBlocksWithSameID bs)).get ⟨j, hj⟩ = t ∧
      assocSubst (uniqueSigma gen bs ctr) (blockKey t) =
        ((generatedIDs gen (uniqueIDsTargets (getBlocksWithSameID bs)) ctr).get
          ⟨j, by rw [generatedIDs_length]; exact hj⟩, t.workspaceID) := by
  obtain ⟨⟨j, hjlt⟩, hget⟩ := List.mem_iff_get.mp ht
  refine ⟨j, hjlt, hget, ?_⟩
  have hkey := assocSubst_get (uniqueSigma gen bs ctr) (uniqueSigma_nodup_keys hkd)
    ⟨j, by rw [uniqueSigma_length]; exact hjlt⟩
  rw [uniqueSigma_get gen bs ctr j hjlt] at hkey
  dsimp only at hkey
  rw [← hget]
  exact hkey

theorem one_lt_length_of_mem_ne {α : Type} {l : List α} {a b : α}
    (ha : a ∈ l) (hb : b ∈ l) (hne : a ≠ b) : 1 < l.length := by
  match l with
  | [] => simp at ha
  | [x] =>
    rw [List.mem_singleton] at ha hb
    exact absurd (ha.trans hb.symm) hne
  | x :: y :: rest =>
    simp only [List.length_cons]
    omega

/-- Every non-first row of a duplicate group is a target. -/
theorem mem_drop_one_targets {bs : List Block} {X : String}
    (h2 : 1 < (grp bs X).length) {r : Block} (hr : r ∈ (grp bs X).drop 1) :
    r ∈ uniqueIDsTargets (getBlocksWithSameID bs) := by
  have hid : r.id = X := (mem_grp.mp (List.mem_of_mem_drop hr)).2
  rw [mem_uniqueIDsTargets, hid]
  exact ⟨h2, hr⟩

/-- Two targets assigned the same final identifier are the same row. -/
theorem finalID_target_inj {gen : String → Nat → String} {bs : List Block} {ctr : Nat}
    (hkd : KeysDistinct bs)
    (hnodupGen : (generatedIDs gen (uniqueIDsTargets (getBlocksWithSameID bs)) ctr).Nodup)
    {a b : Block} (ha : a ∈ uniqueIDsTargets (getBlocksWithSameID bs))
    (hb : b ∈ uniqueIDsTargets (getBlocksWithSameID bs))
    (he : (assocSubst (uniqueSigma gen bs ctr) (blockKey a)).1 =
      (assocSubst (uniqueSigma gen bs ctr) (blockKey b)).1) : a = b := by
  obtain ⟨ja, hja, hgeta, heqa⟩ := assocSubst_uniqueSigma_target gen ctr hkd ha
  obtain ⟨jb, hjb, hgetb, heqb⟩ := assocSubst_uniqueSigma_target gen ctr hkd hb
  rw [heqa, heqb] at he
  simp only [List.get_eq_getElem] at he
  have hj : ja = jb := hnodupGen.getElem_inj_iff.mp he
  subst hj
  rw [← hgeta, ← hgetb]

/-- A target's final identifier is one of the generated identifiers. -/
theorem finalID_target_gen {gen : String → Nat → String} {bs : List Block} {ctr : Nat}
    (hkd : KeysDistinct bs) {t : Block}
    (ht : t ∈ uniqueIDsTargets (getBlocksWithSameID bs)) :
    (assocSubst (uniqueSigma gen bs ctr) (blockKey t)).1 ∈
      generatedIDs gen (uniqueIDsTargets (getBlocksWithSameID bs)) ctr := by
  obtain ⟨j, hj, _, heq⟩ := assocSubst_uniqueSigma_target gen ctr hkd ht
  rw [heq]
  exact List.get_mem _ _ _

/-- C3: in the unique-IDs migration, for every group of N ≥ 2 rows
sharing an identifier `X`, taken in the underlying listing order
`[r1, ..., rN]`, row `r1` retains `X` unchanged and each of `r2..rN` is
assigned a distinct freshly generated identifier.  (Stated under the
generator-freshness contract of §4.3 and the table's `(id, workspace)`
primary-key invariant; the run is fault-free and not yet marked done.) -/
theorem c3_tie_break (gen : String → Nat → String) (ctr : Nat) (db : DB) (X : String)
    (hflag : parseBoolOrFalse (GetSystemSetting db.settings UniqueIDsMigrationKey) = false)
    (hkd : KeysDistinct db.blocks)
    (hN : 2 ≤ (grp db.blocks X).length)
    (hgenNodup : (generatedIDs gen (uniqueIDsTargets (getBlocksWithSameID db.blocks)) ctr).Nodup)
    (hfresh : ∀ x ∈ generatedIDs gen (uniqueIDsTargets (getBlocksWithSameID db.blocks)) ctr,
      x ∉ db.blocks.map (fun b => b.id)) :
    ∃ r1 rs, grp db.blocks X = r1 :: rs ∧ r1.id = X ∧
      (runUniqueIDsMigration UFnone gen ctr db).db.blocks =
        db.blocks.map (fun b =>
          setBlockKey b (assocSubst (uniqueSigma gen db.blocks ctr) (blockKey b))) ∧
      setBlockKey r1 (assocSubst (uniqueSigma gen db.blocks ctr) (blockKey r1)) = r1 ∧
      (∀ r ∈ rs,
        (assocSubst (uniqueSigma gen db.blocks ctr) (blockKey r)).1 ∈
          generatedIDs gen (uniqueIDsTargets (getBlocksWithSameID db.blocks)) ctr ∧
        (assocSubst (uniqueSigma gen db.blocks ctr) (blockKey r)).1 ∉
          db.blocks.map (fun b => b.id)) ∧
      (rs.map (fun r => (assocSubst (uniqueSigma gen db.blocks ctr) (blockKey r)).1)).Nodup := by
  obtain ⟨r1, rs, hcons⟩ : ∃ r1 rs, grp db.blocks X = r1 :: rs := by
    match hgl : grp db.blocks X with
    | [] =>
      rw [hgl] at hN
      simp at hN
    | r1 :: rs => exact ⟨r1, rs, rfl⟩
  have h1lt : 1 < (grp db.blocks X).length := hN
  have hr1grp : r1 ∈ grp db.blocks X := by
    rw [hcons]
    exact List.mem_cons_self _ _
  have hr1id : r1.id = X := (mem_grp.mp hr1grp).2
  have hr1bs : r1 ∈ db.blocks := (mem_grp.mp hr1grp).1
  have grpnodup : (grp db.blocks X).Nodup := hkd.nodup.filter _
  have hr1nrs : r1 ∉ rs := by
    rw [hcons] at grpnodup
    exact (List.nodup_cons.mp grpnodup).1
  have hdrop : (grp db.blocks X).drop 1 = rs := by
    rw [hcons]
    simp
  have hr1nt : r1 ∉ uniqueIDsTargets (getBlocksWithSameID db.blocks) := by
    intro h
    have h2 := (mem_uniqueIDsTargets.mp h).2
    rw [hr1id, hdrop] at h2
    exact hr1nrs h2
  have hrst : ∀ r ∈ rs, r ∈ uniqueIDsTargets (getBlocksWithSameID db.blocks) := by
    intro r hr
    exact mem_drop_one_targets h1lt (by rw [hdrop]; exact hr)
  refine ⟨r1, rs, hcons, hr1id, ?_, ?_, ?_, ?_⟩
  · rw [runU_none_success gen ctr db hflag hkd hfresh]
  · rw [assocSubst_uniqueSigma_nontarget gen ctr hkd hr1bs hr1nt]
    exact setBlockKey_blockKey r1
  · intro r hr
    refine ⟨finalID_target_gen hkd (hrst r hr), ?_⟩
    exact hfresh _ (finalID_target_gen hkd (hrst r hr))
  · have hrsnodup : rs.Nodup := by
      rw [hcons] at grpnodup
      exact (List.nodup_cons.mp grpnodup).2
    refine List.Nodup.map_on ?_ hrsnodup
    intro a ha b hb he
    exact finalID_target_inj hkd hgenNodup (hrst a ha) (hrst b hb) he

/-- C4: after a successful unique-IDs migration run, no two rows of the
blocks table share an identifier, provided the generated identifiers are
pairwise distinct and disjoint from all pre-existing identifiers (and
the table satisfies the `(id, workspace)` primary-key invariant). -/
theorem c4_uniqueness_postcondition (gen : String → Nat → String) (ctr : Nat) (db : DB)
    (hflag : parseBoolOrFalse (GetSystemSetting db.settings UniqueIDsMigrationKey) = false)
    (hkd : KeysDistinct db.blocks)
    (hgenNodup : (generatedIDs gen (uniqueIDsTargets (getBlocksWithSameID db.blocks)) ctr).Nodup)
    (hfresh : ∀ x ∈ generatedIDs gen (uniqueIDsTargets (getBlocksWithSameID db.blocks)) ctr,
      x ∉ db.blocks.map (fun b => b.id)) :
    ((runUniqueIDsMigration UFnone gen ctr db).db.blocks.map (fun b => b.id)).Nodup := by
  rw [runU_none_success gen ctr db hflag hkd hfresh]
  dsimp only
  rw [List.map_map]
  refine List.Nodup.map_on ?_ hkd.nodup
  intro a ha b hb he
  have he2 : (assocSubst (uniqueSigma gen db.blocks ctr) (blockKey a)).1 =
      (assocSubst (uniqueSigma gen db.blocks ctr) (blockKey b)).1 := he
  by_cases hat : a ∈ uniqueIDsTargets (getBlocksWithSameID db.blocks) <;>
    by_cases hbt : b ∈ uniqueIDsTargets (getBlocksWithSameID db.blocks)
  · exact finalID_target_inj hkd hgenNodup hat hbt he2
  · exfalso
    rw [assocSubst_uniqueSigma_nontarget gen ctr hkd hb hbt] at he2
    have hg := @finalID_target_gen gen db.blocks ctr hkd a hat
    rw [he2] at hg
    exact hfresh _ hg (List.mem_map.mpr ⟨b, hb, rfl⟩)
  · exfalso
    rw [assocSubst_uniqueSigma_nontarget gen ctr hkd ha hat] at he2
    have hg := @finalID_target_gen gen db.blocks ctr hkd b hbt
    rw [← he2] at hg
    exact hfresh _ hg (List.mem_map.mpr ⟨a, ha, rfl⟩)
  · rw [assocSubst_uniqueSigma_nontarget gen ctr hkd ha hat,
      assocSubst_uniqueSigma_nontarget gen ctr hkd hb hbt] at he2
    by_contra hab
    have hbg : b ∈ grp db.blocks a.id := mem_grp.mpr ⟨hb, he2.symm⟩
    have hag : a ∈ grp db.blocks a.id := mem_grp.mpr ⟨ha, rfl⟩
    have h2 : 1 < (grp db.blocks a.id).length := one_lt_length_of_mem_ne hag hbg hab
    obtain ⟨r1, rs, hcons⟩ : ∃ r1 rs, grp db.blocks a.id = r1 :: rs := by
      match hgl : grp db.blocks a.id with
      | [] =>
        rw [hgl] at h2
        simp at h2
      | r1 :: rs => exact ⟨r1, rs, rfl⟩
    have hdrop : (grp db.blocks a.id).drop 1 = rs := by
      rw [hcons]
      simp
    have har1 : a = r1 := by
      rcases (by rw [hcons] at hag; exact List.mem_cons.mp hag) with h | h
      · exact h
      · exact absurd (mem_drop_one_targets h2 (by rw [hdrop]; exact h)) hat
    have hbr1 : b = r1 := by
      rcases (by rw [hcons] at hbg; exact List.mem_cons.mp hbg) with h | h
      · exact h
      · exact absurd (mem_drop_one_targets h2 (by rw [hdrop]; exact h)) hbt
    exact hab (har1.trans hbr1.symm)

theorem find?_append_none {α : Type} (l1 l2 : List α) (p : α → Bool)
    (h : l1.find? p = none) : (l1 ++ l2).find? p = l2.find? p := by
  induction l1 with
  | nil => simp
  | cons a rest ih =>
    rw [List.find?_cons] at h
    match hp : p a with
    | true => rw [hp] at h; exact absurd h (by simp)
    | false =>
      rw [hp] at h
      rw [List.cons_append, List.find?_cons, hp]
      exact ih h

theorem mapAssign_keys (m : List (String × String)) (k v : String) :
    (mapAssign m k v).map (fun p => p.1) =
      if k ∈ m.map (fun p => p.1) then m.map (fun p => p.1)
      else m.map (fun p => p.1) ++ [k] := by
  unfold mapAssign
  by_cases h : ∃ p ∈ m, p.1 = k
  · have hany : m.any (fun p => p.1 = k) = true := by
      rw [List.any_eq_true]
      obtain ⟨p, hp, he⟩ := h
      exact ⟨p, hp, by simp [he]⟩
    have hmem : k ∈ m.map (fun p => p.1) := by
      obtain ⟨p, hp, he⟩ := h
      exact List.mem_map.mpr ⟨p, hp, he⟩
    rw [if_pos hany, if_pos hmem, List.map_map]
    apply List.map_congr_left
    intro p _
    by_cases hpk : p.1 = k
    · simp [hpk]
    · simp [hpk]
  · have hany : m.any (fun p => p.1 = k) = false := by
      rw [List.any_eq_false]
      intro p hp
      simp only [decide_eq_true_eq]
      intro he
      exact h ⟨p, hp, he⟩
    have hmem : k ∉ m.map (fun p => p.1) := by
      intro hk
      obtain ⟨p, hp, he⟩ := List.mem_map.mp hk
      exact h ⟨p, hp, he⟩
    rw [if_neg (by simp [hany]), if_neg hmem]
    simp

theorem mapAssign_values {m : List (String × String)} {k v w : String}
    (h : w ∈ (mapAssign m k v).map (fun p => p.2)) :
    w = v ∨ w ∈ m.map (fun p => p.2) := by
  unfold mapAssign at h
  by_cases hany : m.any (fun p => p.1 = k)
  · rw [if_pos hany, List.map_map] at h
    rw [List.mem_map] at h
    obtain ⟨p, hp, he⟩ := h
    by_cases hpk : p.1 = k
    · simp only [Function.comp, hpk, if_pos rfl] at he
      exact Or.inl he.symm
    · simp only [Function.comp, if_neg hpk] at he
      exact Or.inr (List.mem_map.mpr ⟨p, hp, he⟩)
  · rw [if_neg hany, List.map_append] at h
    rw [List.mem_append] at h
    rcases h with h | h
    · exact Or.inr h
    · simp at h
      exact Or.inl h

theorem find?_append_split {α : Type} (l1 l2 : List α) (p : α → Bool) :
    (l1 ++ l2).find? p = ((l1.find? p).rec (l2.find? p) (fun a => some a)) := by
  induction l1 with
  | nil => simp
  | cons a rest ih =>
    rw [List.cons_append, List.find?_cons, List.find?_cons]
    match p a with
    | true => rfl
    | false => exact ih

theorem find?_map_assign_self (m : List (String × String)) (k v : String)
    (hex : ∃ p ∈ m, p.1 = k) :
    (m.map (fun p => if p.1 = k then (k, v) else p)).find? (fun p => p.1 = k) =
      some (k, v) := by
  induction m with
  | nil =>
    obtain ⟨p, hp, _⟩ := hex
    simp at hp
  | cons q rest ih =>
    rw [List.map_cons, List.find?_cons]
    by_cases hqk : q.1 = k
    · rw [if_pos hqk]
      simp
    · rw [if_neg hqk]
      have hd : (decide (q.1 = k)) = false := by simp [hqk]
      rw [hd]
      refine ih ?_
      obtain ⟨p, hp, he⟩ := hex
      rcases List.mem_cons.mp hp with hq | hm
      · exact absurd (hq ▸ he) hqk
      · exact ⟨p, hm, he⟩

theorem find?_map_assign_ne (m : List (String × String)) (k v x : String) (h : k ≠ x) :
    (m.map (fun p => if p.1 = k then (k, v) else p)).find? (fun p => p.1 = x) =
      m.find? (fun p => p.1 = x) := by
  induction m with
  | nil => simp
  | cons q rest ih =>
    rw [List.map_cons, List.find?_cons, List.find?_cons]
    by_cases hqk : q.1 = k
    · rw [if_pos hqk]
      have h1 : (decide ((k, v).1 = x)) = false := by simp [h]
      have h2 : (decide (q.1 = x)) = false := by
        rw [hqk]
        simp [h]
      rw [h1, h2]
      exact ih
    · rw [if_neg hqk]
      by_cases hqx : q.1 = x
      · have hd : (decide (q.1 = x)) = true := by simp [hqx]
        rw [hd]
      · have hd : (decide (q.1 = x)) = false := by simp [hqx]
        rw [hd]
        exact ih

theorem mapAssign_find_self (m : List (String × String)) (k v : String) :
    (mapAssign m k v).find? (fun p => p.1 = k) = some (k, v) := by
  unfold mapAssign
  by_cases hany : m.any (fun p => p.1 = k)
  · rw [if_pos hany]
    rw [List.any_eq_true] at hany
    obtain ⟨p0, hp0, hp0k⟩ := hany
    simp only [decide_eq_true_eq] at hp0k
    exact find?_map_assign_self m k v ⟨p0, hp0, hp0k⟩
  · rw [if_neg hany]
    have hnone : m.find? (fun p => p.1 = k) = none := by
      rw [List.find?_eq_none]
      intro p hp
      simp only [decide_eq_true_eq]
      intro he
      rw [List.any_eq_true] at hany
      exact hany ⟨p, hp, by simp [he]⟩
    rw [find?_append_none _ _ _ hnone]
    simp

theorem mapAssign_find_ne (m : List (String × String)) (k v x : String) (h : k ≠ x) :
    (mapAssign m k v).find? (fun p => p.1 = x) = m.find? (fun p => p.1 = x) := by
  unfold mapAssign
  by_cases hany : m.any (fun p => p.1 = k)
  · rw [if_pos hany]
    exact find?_map_assign_ne m k v x h
  · rw [if_neg hany]
    rw [find?_append_split]
    have hsing : ([(k, v)] : List (String × String)).find? (fun p => p.1 = x) = none := by
      simp [h]
    match hm : m.find? (fun p => p.1 = x) with
    | some p => rw [hm]
    | none =>
      rw [hm]
      exact hsing

theorem buildIDMapLoop_ctr (gen : String → Nat → String) (olds : List String)
    (m : List (String × String)) (ctr : Nat) :
    (buildIDMapLoop gen olds m ctr).2 = ctr + olds.length := by
  induction olds generalizing m ctr with
  | nil => simp [buildIDMapLoop]
  | cons o rest ih =>
    rw [buildIDMapLoop, ih]
    simp only [List.length_cons]
    omega

theorem buildIDMap_ctr (gen : String → Nat → String) (olds : List String) (ctr : Nat) :
    (buildIDMap gen olds ctr).2 = ctr + olds.length :=
  buildIDMapLoop_ctr gen olds [] ctr

theorem buildIDMapLoop_keys (gen : String → Nat → String) (olds : List String)
    (m : List (String × String)) (ctr : Nat) :
    (buildIDMapLoop gen olds m ctr).1.map (fun p => p.1) =
      olds.foldl (fun acc x => if x ∈ acc then acc else acc ++ [x])
        (m.map (fun p => p.1)) := by
  induction olds generalizing m ctr with
  | nil => simp [buildIDMapLoop]
  | cons o rest ih =>
    rw [buildIDMapLoop, ih, List.foldl_cons, mapAssign_keys]

theorem buildIDMap_keys (gen : String → Nat → String) (olds : List String) (ctr : Nat) :
    (buildIDMap gen olds ctr).1.map (fun p => p.1) = keysInOrder olds := by
  rw [buildIDMap, buildIDMapLoop_keys]
  rfl

theorem buildIDMap_keys_nodup (gen : String → Nat → String) (olds : List String) (ctr : Nat) :
    ((buildIDMap gen olds ctr).1.map (fun p => p.1)).Nodup := by
  rw [buildIDMap_keys]
  exact keysInOrder_nodup olds

theorem mem_buildIDMap_keys {gen : String → Nat → String} {olds : List String} {ctr : Nat}
    {x : String} : x ∈ (buildIDMap gen olds ctr).1.map (fun p => p.1) ↔ x ∈ olds := by
  rw [buildIDMap_keys]
  exact mem_keysInOrder

theorem genListNone_cons (gen : String → Nat → String) (ctr n : Nat) :
    genListNone gen ctr (n + 1) = gen IDTypeNone ctr :: genListNone gen (ctr + 1) n := rfl

theorem buildIDMapLoop_values {gen : String → Nat → String} {olds : List String}
    {m : List (String × String)} {ctr : Nat} {v : String}
    (h : v ∈ (buildIDMapLoop gen olds m ctr).1.map (fun p => p.2)) :
    v ∈ m.map (fun p => p.2) ∨ v ∈ genListNone gen ctr olds.length := by
  induction olds generalizing m ctr with
  | nil =>
    rw [buildIDMapLoop] at h
    exact Or.inl h
  | cons o rest ih =>
    rw [buildIDMapLoop] at h
    rcases ih h with hm | hg
    · rcases mapAssign_values hm with he | hm2
      · exact Or.inr (by rw [he, List.length_cons, genListNone_cons]; simp)
      · exact Or.inl hm2
    · rw [List.length_cons, genListNone_cons]
      exact Or.inr (List.mem_cons.mpr (Or.inr hg))

theorem buildIDMap_values {gen : String → Nat → String} {olds : List String} {ctr : Nat}
    {v : String} (h : v ∈ (buildIDMap gen olds ctr).1.map (fun p => p.2)) :
    v ∈ genListNone gen ctr olds.length := by
  rcases buildIDMapLoop_values h with hm | hg
  · simp at hm
  · exact hg

/-- The binding the Go map holds for key `x`: the fresh identifier
generated at the last occurrence of `x` (later assignments overwrite
earlier ones). -/
theorem buildIDMapLoop_find (gen : String → Nat → String) (olds : List String)
    (m : List (String × String)) (ctr : Nat) (x : String) :
    (buildIDMapLoop gen olds m ctr).1.find? (fun p => p.1 = x) =
      (match lastAssign gen olds ctr x with
       | some v => some (x, v)
       | none => m.find? (fun p => p.1 = x)) := by
  induction olds generalizing m ctr with
  | nil => simp [buildIDMapLoop, lastAssign]
  | cons o rest ih =>
    rw [buildIDMapLoop, ih]
    rw [lastAssign]
    match hl : lastAssign gen rest (ctr + 1) x with
    | some v => rfl
    | none =>
      by_cases hox : o = x
      · rw [if_pos hox, hox]
        exact mapAssign_find_self m x (gen IDTypeNone ctr)
      · rw [if_neg hox]
        exact mapAssign_find_ne m o (gen IDTypeNone ctr) x hox

theorem buildIDMap_find (gen : String → Nat → String) (olds : List String) (ctr : Nat)
    (x : String) :
    (buildIDMap gen olds ctr).1.find? (fun p => p.1 = x) =
      (match lastAssign gen olds ctr x with
       | some v => some (x, v)
       | none => none) := by
  rw [buildIDMap, buildIDMapLoop_find]
  match lastAssign gen olds ctr x with
  | some v => rfl
  | none => simp

theorem updateCategoryID_eq (cats : List Category) (cbs : List CategoryBlock)
    (oldID newID : String) :
    updateCategoryID cats cbs oldID newID =
      (updateWhere (fun c => c.id) (fun _ v => ⟨v⟩) cats oldID newID,
       updateWhere (fun cb => cb.categoryID) (fun cb v => ⟨cb.id, v⟩) cbs oldID newID) := rfl

theorem updateCategoryBlocksID_eq (cbs : List CategoryBlock) (oldID newID : String) :
    updateCategoryBlocksID cbs oldID newID =
      updateWhere (fun cb => cb.id) (fun cb v => ⟨v, cb.categoryID⟩) cbs oldID newID := rfl

/-- The fault-free category update loop applies the map to both tables
componentwise, issuing two queries per entry. -/
theorem applyCategoryUpdates_none_eq (m : List (String × String)) (cats : List Category)
    (cbs : List CategoryBlock) (i : Nat) :
    applyCategoryUpdates none m cats cbs i =
      (Except.ok (applyMapField (fun c => c.id) (fun _ v => ⟨v⟩) m cats,
        applyMapField (fun cb => cb.categoryID) (fun cb v => ⟨cb.id, v⟩) m cbs),
       2 * m.length) := by
  induction m generalizing cats cbs i with
  | nil => simp [applyCategoryUpdates, applyMapField]
  | cons p rest ih =>
    simp only [applyCategoryUpdates, updateCategoryID_eq, ih, applyMapField,
      List.length_cons, Prod.mk.injEq]
    exact ⟨trivial, by omega⟩

theorem applyCategoryUpdates_fail (e : String) (m : List (String × String))
    (cats : List Category) (cbs : List CategoryBlock) (i k : Nat) (hk : k < m.length) :
    (applyCategoryUpdates (some (i + k, e)) m cats cbs i).1 = Except.error e := by
  induction m generalizing cats cbs i k with
  | nil => exact absurd hk (by simp)
  | cons p rest ih =>
    match k with
    | 0 => simp [applyCategoryUpdates]
    | k + 1 =>
      have hkr : k < rest.length := by simpa using hk
      have hne : ¬ (i + (k + 1) = i) := by omega
      have harith : (i + 1) + k = i + (k + 1) := by omega
      rw [applyCategoryUpdates]
      rw [if_neg hne]
      have h2 := ih (updateCategoryID cats cbs p.1 p.2).1 (updateCategoryID cats cbs p.1 p.2).2
        (i + 1) k hkr
      rw [harith] at h2
      rcases hrr : applyCategoryUpdates (some (i + (k + 1), e)) rest
          (updateCategoryID cats cbs p.1 p.2).1 (updateCategoryID cats cbs p.1 p.2).2
          (i + 1) with ⟨r, q⟩
      rw [hrr] at h2
      simp only [hrr]
      exact h2

/-- The fault-free category-blocks update loop, one query per entry. -/
theorem applyCategoryBlocksUpdates_none_eq (m : List (String × String))
    (cbs : List CategoryBlock) (i : Nat) :
    applyCategoryBlocksUpdates none m cbs i =
      (Except.ok (applyMapField (fun cb => cb.id) (fun cb v => ⟨v, cb.categoryID⟩) m cbs),
       m.length) := by
  induction m generalizing cbs i with
  | nil => simp [applyCategoryBlocksUpdates, applyMapField]
  | cons p rest ih =>
    rw [applyCategoryBlocksUpdates, updateCategoryBlocksID_eq, ih]
    simp only [applyMapField, List.length_cons]

theorem applyCategoryBlocksUpdates_fail (e : String) (m : List (String × String))
    (cbs : List CategoryBlock) (i k : Nat) (hk : k < m.length) :
    (applyCategoryBlocksUpdates (some (i + k, e)) m cbs i).1 = Except.error e := by
  induction m generalizing cbs i k with
  | nil => exact absurd hk (by simp)
  | cons p rest ih =>
    match k with
    | 0 => simp [applyCategoryBlocksUpdates]
    | k + 1 =>
      have hkr : k < rest.length := by simpa using hk
      have hne : ¬ (i + (k + 1) = i) := by omega
      have harith : (i + 1) + k = i + (k + 1) := by omega
      rw [applyCategoryBlocksUpdates]
      rw [if_neg hne]
      have h2 := ih (updateCategoryBlocksID cbs p.1 p.2) (i + 1) k hkr
      rw [harith] at h2
      rcases hrr : applyCategoryBlocksUpdates (some (i + (k + 1), e)) rest
          (updateCategoryBlocksID cbs p.1 p.2) (i + 1) with ⟨r, q⟩
      rw [hrr] at h2
      simp only [hrr]
      exact h2

/-- The foreign-key rewrite of phase one leaves the `id` column of
`category_blocks` untouched. -/
theorem applyMapField_fk_preserves_ids (m : List (String × String))
    (cbs : List CategoryBlock) :
    (applyMapField (fun cb => cb.categoryID) (fun cb v => ⟨cb.id, v⟩) m cbs).map
        (fun cb => cb.id) =
      cbs.map (fun cb => cb.id) := by
  induction m generalizing cbs with
  | nil => rfl
  | cons p rest ih =>
    rw [applyMapField, ih, updateWhere, List.map_map]
    apply List.map_congr_left
    intro cb _
    by_cases h : cb.categoryID = p.1
    · simp [h]
    · simp [h]

/-- The own-identifier rewrite of phase two leaves the `category_id`
foreign-key column of `category_blocks` untouched. -/
theorem applyMapField_id_preserves_fk (m : List (String × String))
    (cbs : List CategoryBlock) :
    (applyMapField (fun cb => cb.id) (fun cb v => ⟨v, cb.categoryID⟩) m cbs).map
        (fun cb => cb.categoryID) =
      cbs.map (fun cb => cb.categoryID) := by
  induction m generalizing cbs with
  | nil => rfl
  | cons p rest ih =>
    rw [applyMapField, ih, updateWhere, List.map_map]
    apply List.map_congr_left
    intro cb _
    by_cases h : cb.id = p.1
    · simp [h]
    · simp [h]

theorem updateCategoryIDs_none_eq (gen : String → Nat → String) (cats : List Category)
    (cbs : List CategoryBlock) (ctr : Nat) :
    updateCategoryIDs gen none none cats cbs ctr =
      (Except.ok
        (applyMapField (fun c => c.id) (fun _ v => ⟨v⟩)
          (buildIDMap gen (getIDs cats (fun c => c.id)) ctr).1 cats,
         applyMapField (fun cb => cb.categoryID) (fun cb v => ⟨cb.id, v⟩)
          (buildIDMap gen (getIDs cats (fun c => c.id)) ctr).1 cbs),
       ctr + cats.length,
       2 * (buildIDMap gen (getIDs cats (fun c => c.id)) ctr).1.length + 1) := by
  rcases hbm : buildIDMap gen (getIDs cats (fun c => c.id)) ctr with ⟨m, c⟩
  have hm : m = (buildIDMap gen (getIDs cats (fun c => c.id)) ctr).1 := by rw [hbm]
  have hc : c = ctr + cats.length := by
    have h2 := buildIDMap_ctr gen (getIDs cats (fun c => c.id)) ctr
    rw [hbm] at h2
    simpa [getIDs] using h2
  simp only [updateCategoryIDs, hbm, applyCategoryUpdates_none_eq]
  rw [hm, hc]

theorem updateCategoryBlocksIDs_none_eq (gen : String → Nat → String)
    (cbs : List CategoryBlock) (ctr : Nat) :
    updateCategoryBlocksIDs gen none none cbs ctr =
      (Except.ok
        (applyMapField (fun cb => cb.id) (fun cb v => ⟨v, cb.categoryID⟩)
          (buildIDMap gen (getIDs cbs (fun cb => cb.id)) ctr).1 cbs),
       ctr + cbs.length,
       (buildIDMap gen (getIDs cbs (fun cb => cb.id)) ctr).1.length + 1) := by
  rcases hbm : buildIDMap gen (getIDs cbs (fun cb => cb.id)) ctr with ⟨m, c⟩
  have hm : m = (buildIDMap gen (getIDs cbs (fun cb => cb.id)) ctr).1 := by rw [hbm]
  have hc : c = ctr + cbs.length := by
    have h2 := buildIDMap_ctr gen (getIDs cbs (fun cb => cb.id)) ctr
    rw [hbm] at h2
    simpa [getIDs] using h2
  simp only [updateCategoryBlocksIDs, hbm, applyCategoryBlocksUpdates_none_eq]
  rw [hm, hc]


/-- Characterization of a fault-free category migration run on a
not-yet-migrated database. -/
theorem runCat_none_success (gen : String → Nat → String) (ctr : Nat) (db : DB)
    (hflag : parseBoolOrFalse (GetSystemSetting db.settings CategoryUUIDIDMigrationKey)
      = false) :
    runCategoryUuidIdMigration CFnone gen ctr db =
      ⟨none,
       ⟨db.blocks,
        applyMapField (fun c => c.id) (fun _ v => ⟨v⟩) (catSigma gen ctr db) db.categories,
        applyMapField (fun cb => cb.id) (fun cb v => ⟨v, cb.categoryID⟩) (cbSigma gen ctr db)
          (applyMapField (fun cb => cb.categoryID) (fun cb v => ⟨cb.id, v⟩)
            (catSigma gen ctr db) db.categoryBlocks),
        setSystemSetting db.settings CategoryUUIDIDMigrationKey "true"⟩,
       true, true, false,
       ctr + db.categories.length + db.categoryBlocks.length,
       (2 * (catSigma gen ctr db).length + 1) + ((cbSigma gen ctr db).length + 1)⟩ := by
  have hids : getIDs (applyMapField (fun cb => cb.categoryID) (fun cb v => ⟨cb.id, v⟩)
      (catSigma gen ctr db) db.categoryBlocks) (fun cb => cb.id) =
      getIDs db.categoryBlocks (fun cb => cb.id) :=
    applyMapField_fk_preserves_ids (catSigma gen ctr db) db.categoryBlocks
  have hlen : (applyMapField (fun cb => cb.categoryID) (fun cb v => ⟨cb.id, v⟩)
      (catSigma gen ctr db) db.categoryBlocks).length = db.categoryBlocks.length := by
    have := congrArg List.length hids
    simpa [getIDs] using this
  simp only [catSigma] at hids hlen
  simp only [runCategoryUuidIdMigration, CFnone, hflag, Bool.false_eq_true, if_false,
    updateCategoryIDs_none_eq, updateCategoryBlocksIDs_none_eq, catSigma, cbSigma, hids, hlen]

theorem assocSubst_mem_values {κ : Type} [DecidableEq κ] (σ : List (κ × κ)) (k : κ)
    (h : k ∈ σ.map (fun p => p.1)) : assocSubst σ k ∈ σ.map (fun p => p.2) := by
  rcases hf : σ.find? (fun e => e.1 = k) with _ | e
  · exfalso
    rw [List.find?_eq_none] at hf
    obtain ⟨p, hp, he⟩ := List.mem_map.mp h
    exact hf p hp (by simp [he])
  · unfold assocSubst
    rw [hf]
    exact List.mem_map.mpr ⟨e, List.mem_of_find?_eq_some hf, rfl⟩

theorem buildIDMap_disj (gen : String → Nat → String) (olds : List String) (ctr : Nat)
    (hfresh : ∀ x ∈ genListNone gen ctr olds.length, x ∉ olds) :
    ∀ v ∈ (buildIDMap gen olds ctr).1.map (fun p => p.2),
      v ∉ (buildIDMap gen olds ctr).1.map (fun p => p.1) := by
  intro v hv hk
  exact hfresh v (buildIDMap_values hv) (mem_buildIDMap_keys.mp hk)

/-- Phase one on the categories table: every row's identifier becomes
its `catSigma` substitution. -/
theorem catPhase_cats (gen : String → Nat → String) (ctr : Nat) (db : DB)
    (hfresh : ∀ x ∈ genListNone gen ctr (getIDs db.categories (fun c => c.id)).length,
      x ∉ getIDs db.categories (fun c => c.id)) :
    applyMapField (fun c => c.id) (fun _ v => ⟨v⟩) (catSigma gen ctr db) db.categories =
      db.categories.map (fun c => (⟨assocSubst (catSigma gen ctr db) c.id⟩ : Category)) := by
  exact applyMapField_eq (fun c => c.id) (fun _ v => ⟨v⟩) (fun _ _ => rfl) (fun _ => rfl)
    (fun _ _ _ => rfl) (catSigma gen ctr db) db.categories
    (buildIDMap_keys_nodup gen _ ctr) (buildIDMap_disj gen _ ctr hfresh)

/-- Phase one on the category_blocks table: every row's foreign key
becomes its `catSigma` substitution (its own id untouched). -/
theorem catPhase_fk (gen : String → Nat → String) (ctr : Nat) (db : DB)
    (hfresh : ∀ x ∈ genListNone gen ctr (getIDs db.categories (fun c => c.id)).length,
      x ∉ getIDs db.categories (fun c => c.id)) :
    applyMapField (fun cb => cb.categoryID) (fun cb v => ⟨cb.id, v⟩) (catSigma gen ctr db)
        db.categoryBlocks =
      db.categoryBlocks.map (fun cb =>
        (⟨cb.id, assocSubst (catSigma gen ctr db) cb.categoryID⟩ : CategoryBlock)) := by
  exact applyMapField_eq (fun cb => cb.categoryID) (fun cb v => ⟨cb.id, v⟩) (fun _ _ => rfl)
    (fun _ => rfl) (fun _ _ _ => rfl) (catSigma gen ctr db) db.categoryBlocks
    (buildIDMap_keys_nodup gen _ ctr) (buildIDMap_disj gen _ ctr hfresh)

/-- Phase two on any category_blocks state: every row's own identifier
becomes its `cbSigma` substitution (the foreign key untouched). -/
theorem cbPhase_id (gen : String → Nat → String) (ctr : Nat) (db : DB)
    (hfresh2 : ∀ x ∈ genListNone gen (ctr + db.categories.length)
        (getIDs db.categoryBlocks (fun cb => cb.id)).length,
      x ∉ getIDs db.categoryBlocks (fun cb => cb.id)) (cbs1 : List CategoryBlock) :
    applyMapField (fun cb => cb.id) (fun cb v => ⟨v, cb.categoryID⟩) (cbSigma gen ctr db) cbs1 =
      cbs1.map (fun cb =>
        (⟨assocSubst (cbSigma gen ctr db) cb.id, cb.categoryID⟩ : CategoryBlock)) := by
  exact applyMapField_eq (fun cb => cb.id) (fun cb v => ⟨v, cb.categoryID⟩) (fun _ _ => rfl)
    (fun _ => rfl) (fun _ _ _ => rfl) (cbSigma gen ctr db) cbs1
    (buildIDMap_keys_nodup gen _ _) (buildIDMap_disj gen _ _ hfresh2)

/-- C5: in the category migration, every category identifier is replaced
unconditionally with a fresh identifier, the `category_blocks` foreign
keys are remapped along the same old→new mapping, and afterwards every
dependent row's foreign key equals the identifier of some surviving
category row (never orphaned), assuming referential integrity held
before the run and the generator is fresh. -/
theorem c5_referential_integrity (gen : String → Nat → String) (ctr : Nat) (db : DB)
    (hflag : parseBoolOrFalse (GetSystemSetting db.settings CategoryUUIDIDMigrationKey)
      = false)
    (hfresh1 : ∀ x ∈ genListNone gen ctr (getIDs db.categories (fun c => c.id)).length,
      x ∉ getIDs db.categories (fun c => c.id))
    (hfresh2 : ∀ x ∈ genListNone gen (ctr + db.categories.length)
        (getIDs db.categoryBlocks (fun cb => cb.id)).length,
      x ∉ getIDs db.categoryBlocks (fun cb => cb.id))
    (href : ∀ cb ∈ db.categoryBlocks, ∃ c ∈ db.categories, cb.categoryID = c.id) :
    ((runCategoryUuidIdMigration CFnone gen ctr db).db.categories.map (fun c => c.id) =
      db.categories.map (fun c => assocSubst (catSigma gen ctr db) c.id)) ∧
    ((runCategoryUuidIdMigration CFnone gen ctr db).db.categoryBlocks.map
        (fun cb => cb.categoryID) =
      db.categoryBlocks.map (fun cb => assocSubst (catSigma gen ctr db) cb.categoryID)) ∧
    (∀ c ∈ (runCategoryUuidIdMigration CFnone gen ctr db).db.categories,
      c.id ∉ getIDs db.categories (fun c2 => c2.id)) ∧
    (∀ cb ∈ (runCategoryUuidIdMigration CFnone gen ctr db).db.categoryBlocks,
      ∃ c ∈ (runCategoryUuidIdMigration CFnone gen ctr db).db.categories,
        cb.categoryID = c.id) := by
  rw [runCat_none_success gen ctr db hflag]
  dsimp only
  rw [catPhase_cats gen ctr db hfresh1, catPhase_fk gen ctr db hfresh1,
    cbPhase_id gen ctr db hfresh2]
  refine ⟨?_, ?_, ?_, ?_⟩
  · rw [List.map_map]
    exact List.map_congr_left (fun c _ => rfl)
  · rw [List.map_map, List.map_map]
    exact List.map_congr_left (fun cb _ => rfl)
  · intro c hc
    rw [List.mem_map] at hc
    obtain ⟨c0, hc0, rfl⟩ := hc
    intro hmem
    have hkey : c0.id ∈ (catSigma gen ctr db).map (fun p => p.1) := by
      rw [catSigma, mem_buildIDMap_keys]
      exact List.mem_map.mpr ⟨c0, hc0, rfl⟩
    have hval := assocSubst_mem_values (catSigma gen ctr db) c0.id hkey
    exact buildIDMap_disj gen _ ctr hfresh1 _ hval
      (by rw [catSigma, mem_buildIDMap_keys]; exact hmem)
  · intro cb hcb
    rw [List.map_map, List.mem_map] at hcb
    obtain ⟨cb0, hcb0, rfl⟩ := hcb
    obtain ⟨c0, hc0, he⟩ := href cb0 hcb0
    refine ⟨⟨assocSubst (catSigma gen ctr db) c0.id⟩, ?_, ?_⟩
    · exact List.mem_map.mpr ⟨c0, hc0, rfl⟩
    · show assocSubst (catSigma gen ctr db) cb0.categoryID =
        assocSubst (catSigma gen ctr db) c0.id
      rw [he]

/-- C6: the category migration maintains two independent mappings over
two different identifier spaces: `catSigma` rewrites the category
identifiers and is propagated into the `category_id` foreign-key column
of `category_blocks`, while the independently generated `cbSigma`
rewrites `category_blocks`' own `id` column; no new identifier of one
mapping occurs among the new identifiers of the other (assuming the
generator never repeats a value across the two counter ranges). -/
theorem c6_independent_mappings (gen : String → Nat → String) (ctr : Nat) (db : DB)
    (hflag : parseBoolOrFalse (GetSystemSetting db.settings CategoryUUIDIDMigrationKey)
      = false)
    (hfresh1 : ∀ x ∈ genListNone gen ctr (getIDs db.categories (fun c => c.id)).length,
      x ∉ getIDs db.categories (fun c => c.id))
    (hfresh2 : ∀ x ∈ genListNone gen (ctr + db.categories.length)
        (getIDs db.categoryBlocks (fun cb => cb.id)).length,
      x ∉ getIDs db.categoryBlocks (fun cb => cb.id))
    (hdisj : (genListNone gen ctr (getIDs db.categories (fun c => c.id)).length ++
      genListNone gen (ctr + db.categories.length)
        (getIDs db.categoryBlocks (fun cb => cb.id)).length).Nodup) :
    (∀ v ∈ (catSigma gen ctr db).map (fun p => p.2),
      v ∉ (cbSigma gen ctr db).map (fun p => p.2)) ∧
    ((catSigma gen ctr db).map (fun p => p.1) =
      keysInOrder (getIDs db.categories (fun c => c.id))) ∧
    ((cbSigma gen ctr db).map (fun p => p.1) =
      keysInOrder (getIDs db.categoryBlocks (fun cb => cb.id))) ∧
    ((runCategoryUuidIdMigration CFnone gen ctr db).db.categories.map (fun c => c.id) =
      db.categories.map (fun c => assocSubst (catSigma gen ctr db) c.id)) ∧
    ((runCategoryUuidIdMigration CFnone gen ctr db).db.categoryBlocks.map
        (fun cb => cb.categoryID) =
      db.categoryBlocks.map (fun cb => assocSubst (catSigma gen ctr db) cb.categoryID)) ∧
    ((runCategoryUuidIdMigration CFnone gen ctr db).db.categoryBlocks.map (fun cb => cb.id) =
      db.categoryBlocks.map (fun cb => assocSubst (cbSigma gen ctr db) cb.id)) := by
  refine ⟨?_, ?_, ?_, ?_, ?_, ?_⟩
  · intro v hv1 hv2
    have hg1 : v ∈ genListNone gen ctr (getIDs db.categories (fun c => c.id)).length :=
      buildIDMap_values hv1
    have hg2 : v ∈ genListNone gen (ctr + db.categories.length)
        (getIDs db.categoryBlocks (fun cb => cb.id)).length :=
      buildIDMap_values hv2
    exact List.disjoint_of_nodup_append hdisj hg1 hg2
  · exact buildIDMap_keys gen _ ctr
  · exact buildIDMap_keys gen _ _
  · rw [runCat_none_success gen ctr db hflag]
    dsimp only
    rw [catPhase_cats gen ctr db hfresh1, List.map_map]
    exact List.map_congr_left (fun c _ => rfl)
  · rw [runCat_none_success gen ctr db hflag]
    dsimp only
    rw [catPhase_fk gen ctr db hfresh1, cbPhase_id gen ctr db hfresh2,
      List.map_map, List.map_map]
    exact List.map_congr_left (fun cb _ => rfl)
  · rw [runCat_none_success gen ctr db hflag]
    dsimp only
    rw [catPhase_fk gen ctr db hfresh1, cbPhase_id gen ctr db hfresh2,
      List.map_map, List.map_map]
    exact List.map_congr_left (fun cb _ => rfl)

/-- C9: the category migration's old→new maps are keyed on the
identifier value (one entry per distinct listed identifier, a later
assignment for a repeated identifier overwriting the earlier one), and
are applied by one update per distinct old value, so rows sharing an old
identifier all receive the same single new identifier and
identifier-equality between rows is preserved. -/
theorem c9_same_old_same_new (gen : String → Nat → String) (ctr : Nat) (db : DB)
    (hflag : parseBoolOrFalse (GetSystemSetting db.settings CategoryUUIDIDMigrationKey)
      = false)
    (hfresh1 : ∀ x ∈ genListNone gen ctr (getIDs db.categories (fun c => c.id)).length,
      x ∉ getIDs db.categories (fun c => c.id)) :
    ((catSigma gen ctr db).map (fun p => p.1) =
      keysInOrder (getIDs db.categories (fun c => c.id))) ∧
    ((catSigma gen ctr db).map (fun p => p.1)).Nodup ∧
    (∀ x, (catSigma gen ctr db).find? (fun p => p.1 = x) =
      (match lastAssign gen (getIDs db.categories (fun c => c.id)) ctr x with
       | some v => some (x, v)
       | none => none)) ∧
    ((catSigma gen ctr db).length =
      (keysInOrder (getIDs db.categories (fun c => c.id))).length) ∧
    ((runCategoryUuidIdMigration CFnone gen ctr db).db.categories.map (fun c => c.id) =
      (db.categories.map (fun c => c.id)).map (assocSubst (catSigma gen ctr db))) ∧
    ((runCategoryUuidIdMigration CFnone gen ctr db).db.categoryBlocks.map
        (fun cb => cb.categoryID) =
      (db.categoryBlocks.map (fun cb => cb.categoryID)).map
        (assocSubst (catSigma gen ctr db))) ∧
    (∀ i j : Nat,
      (db.categories.map (fun c => c.id)).get? i =
        (db.categories.map (fun c => c.id)).get? j →
      ((runCategoryUuidIdMigration CFnone gen ctr db).db.categories.map
          (fun c => c.id)).get? i =
        ((runCategoryUuidIdMigration CFnone gen ctr db).db.categories.map
          (fun c => c.id)).get? j) ∧
    (∀ i j : Nat,
      (db.categoryBlocks.map (fun cb => cb.categoryID)).get? i =
        (db.categoryBlocks.map (fun cb => cb.categoryID)).get? j →
      ((runCategoryUuidIdMigration CFnone gen ctr db).db.categoryBlocks.map
          (fun cb => cb.categoryID)).get? i =
        ((runCategoryUuidIdMigration CFnone gen ctr db).db.categoryBlocks.map
          (fun cb => cb.categoryID)).get? j) := by
  have hcats : (runCategoryUuidIdMigration CFnone gen ctr db).db.categories.map
      (fun c => c.id) =
      (db.categories.map (fun c => c.id)).map (assocSubst (catSigma gen ctr db)) := by
    rw [runCat_none_success gen ctr db hflag]
    dsimp only
    rw [catPhase_cats gen ctr db hfresh1, List.map_map, List.map_map]
    exact List.map_congr_left (fun c _ => rfl)
  have hcbs : (runCategoryUuidIdMigration CFnone gen ctr db).db.categoryBlocks.map
      (fun cb => cb.categoryID) =
      (db.categoryBlocks.map (fun cb => cb.categoryID)).map
        (assocSubst (catSigma gen ctr db)) := by
    rw [runCat_none_success gen ctr db hflag]
    dsimp only
    rw [applyMapField_id_preserves_fk, catPhase_fk gen ctr db hfresh1,
      List.map_map, List.map_map]
    exact List.map_congr_left (fun cb _ => rfl)
  refine ⟨buildIDMap_keys gen _ ctr, buildIDMap_keys_nodup gen _ ctr, ?_, ?_, hcats, hcbs,
    ?_, ?_⟩
  · intro x
    exact buildIDMap_find gen _ ctr x
  · have h2 := congrArg List.length
      (buildIDMap_keys gen (getIDs db.categories (fun c => c.id)) ctr)
    simpa using h2
  · intro i j h
    have h2 : ∀ n : Nat,
        (List.map (assocSubst (catSigma gen ctr db))
          (db.categories.map (fun c => c.id))).get? n =
        ((db.categories.map (fun c => c.id)).get? n).map
          (assocSubst (catSigma gen ctr db)) :=
      fun n => List.get?_map _ _ _
    rw [hcats, h2 i, h2 j, h]
  · intro i j h
    have h2 : ∀ n : Nat,
        (List.map (assocSubst (catSigma gen ctr db))
          (db.categoryBlocks.map (fun cb => cb.categoryID))).get? n =
        ((db.categoryBlocks.map (fun cb => cb.categoryID)).get? n).map
          (assocSubst (catSigma gen ctr db)) :=
      fun n => List.get?_map _ _ _
    rw [hcbs, h2 i, h2 j, h]


theorem runU_gate (e : String) (gen : String → Nat → String) (ctr : Nat) (db : DB) :
    runUniqueIDsMigration (UFgate e) gen ctr db =
      ⟨some e, db, false, false, false, ctr, 0⟩ := rfl

theorem runU_getSetting (e : String) (gen : String → Nat → String) (ctr : Nat) (db : DB) :
    runUniqueIDsMigration (UFgetSetting e) gen ctr db =
      ⟨some ("cannot get migration state: " ++ e), db, false, false, false, ctr, 0⟩ := rfl

theorem runU_beginTx (e : String) (gen : String → Nat → String) (ctr : Nat) (db : DB)
    (hflag : parseBoolOrFalse (GetSystemSetting db.settings UniqueIDsMigrationKey) = false) :
    runUniqueIDsMigration (UFbeginTx e) gen ctr db =
      ⟨some e, db, false, false, false, ctr, 0⟩ := by
  simp [runUniqueIDsMigration, UFbeginTx, hflag]

theorem runU_scan (e : String) (gen : String → Nat → String) (ctr : Nat) (db : DB)
    (hflag : parseBoolOrFalse (GetSystemSetting db.settings UniqueIDsMigrationKey) = false) :
    runUniqueIDsMigration (UFscan e) gen ctr db =
      ⟨some ("cannot get blocks with same ID: " ++ e), db, true, false, true, ctr, 1⟩ := by
  simp [runUniqueIDsMigration, UFscan, hflag]

theorem runU_replace (e : String) (gen : String → Nat → String) (ctr : Nat) (db : DB)
    (k : Nat)
    (hflag : parseBoolOrFalse (GetSystemSetting db.settings UniqueIDsMigrationKey) = false)
    (hk : k < (uniqueIDsTargets (getBlocksWithSameID db.blocks)).length) :
    (runUniqueIDsMigration (UFreplace k e) gen ctr db).res =
      some ("cannot replace blockID " ++
        ((uniqueIDsTargets (getBlocksWithSameID db.blocks)).get ⟨k, hk⟩).id ++ ": " ++ e) ∧
    (runUniqueIDsMigration (UFreplace k e) gen ctr db).db = db ∧
    (runUniqueIDsMigration (UFreplace k e) gen ctr db).txOpened = true ∧
    (runUniqueIDsMigration (UFreplace k e) gen ctr db).committed = false ∧
    (runUniqueIDsMigration (UFreplace k e) gen ctr db).rolledBack = true := by
  rcases hrr : runReplacements gen (some (k, e))
      (uniqueIDsTargets (getBlocksWithSameID db.blocks)) db.blocks ctr 0 with ⟨r, c, q⟩
  have h1 : r = Except.error
      (((uniqueIDsTargets (getBlocksWithSameID db.blocks)).get ⟨k, hk⟩).id, e) := by
    have h2 := runReplacements_fail gen e (uniqueIDsTargets (getBlocksWithSameID db.blocks))
      db.blocks ctr 0 k hk
    rw [Nat.zero_add, hrr] at h2
    exact h2
  simp [runUniqueIDsMigration, UFreplace, hflag, hrr, h1]

/-- The fault-free run on a not-yet-migrated database, before any
rewriting of the replacement fold. -/
theorem runU_none_raw (gen : String → Nat → String) (ctr : Nat) (db : DB)
    (hflag : parseBoolOrFalse (GetSystemSetting db.settings UniqueIDsMigrationKey) = false) :
    runUniqueIDsMigration UFnone gen ctr db =
      ⟨none,
       ⟨applyMapField blockKey setBlockKey (uniqueSigma gen db.blocks ctr) db.blocks,
        db.categories, db.categoryBlocks,
        setSystemSetting db.settings UniqueIDsMigrationKey "true"⟩,
       true, true, false,
       ctr + (uniqueIDsTargets (getBlocksWithSameID db.blocks)).length,
       (uniqueIDsTargets (getBlocksWithSameID db.blocks)).length + 1⟩ := by
  simp only [runUniqueIDsMigration, UFnone, hflag, Bool.false_eq_true, if_false,
    runReplacements_none_eq]
  rfl

theorem runU_setSetting (e : String) (gen : String → Nat → String) (ctr : Nat) (db : DB)
    (hflag : parseBoolOrFalse (GetSystemSetting db.settings UniqueIDsMigrationKey) = false) :
    runUniqueIDsMigration (UFsetSetting e) gen ctr db =
      ⟨some ("cannot mark migration as completed: " ++ e), db, true, false, true,
       ctr + (uniqueIDsTargets (getBlocksWithSameID db.blocks)).length,
       (uniqueIDsTargets (getBlocksWithSameID db.blocks)).length + 1⟩ := by
  simp only [runUniqueIDsMigration, UFsetSetting, hflag, Bool.false_eq_true, if_false,
    runReplacements_none_eq]

theorem runU_commit (e : String) (gen : String → Nat → String) (ctr : Nat) (db : DB)
    (hflag : parseBoolOrFalse (GetSystemSetting db.settings UniqueIDsMigrationKey) = false) :
    runUniqueIDsMigration (UFcommit e) gen ctr db =
      ⟨some ("cannot commit unique IDs transaction: " ++ e), db, true, false, false,
       ctr + (uniqueIDsTargets (getBlocksWithSameID db.blocks)).length,
       (uniqueIDsTargets (getBlocksWithSameID db.blocks)).length + 1⟩ := by
  simp only [runUniqueIDsMigration, UFcommit, hflag, Bool.false_eq_true, if_false,
    runReplacements_none_eq]

theorem runCat_gate (e : String) (gen : String → Nat → String) (ctr : Nat) (db : DB) :
    runCategoryUuidIdMigration (CFgate e) gen ctr db =
      ⟨some e, db, false, false, false, ctr, 0⟩ := rfl

theorem runCat_getSetting (e : String) (gen : String → Nat → String) (ctr : Nat) (db : DB) :
    runCategoryUuidIdMigration (CFgetSetting e) gen ctr db =
      ⟨some ("cannot get migration state: " ++ e), db, false, false, false, ctr, 0⟩ := rfl

theorem runCat_beginTx (e : String) (gen : String → Nat → String) (ctr : Nat) (db : DB)
    (hflag : parseBoolOrFalse (GetSystemSetting db.settings CategoryUUIDIDMigrationKey)
      = false) :
    runCategoryUuidIdMigration (CFbeginTx e) gen ctr db =
      ⟨some e, db, false, false, false, ctr, 0⟩ := by
  simp [runCategoryUuidIdMigration, CFbeginTx, hflag]

/-- A failing category-ID listing: the raw error is returned, no
rollback is performed, the transaction stays open. -/
theorem runCat_catList (e : String) (gen : String → Nat → String) (ctr : Nat) (db : DB)
    (hflag : parseBoolOrFalse (GetSystemSetting db.settings CategoryUUIDIDMigrationKey)
      = false) :
    runCategoryUuidIdMigration (CFcatList e) gen ctr db =
      ⟨some e, db, true, false, false, ctr, 1⟩ := by
  simp [runCategoryUuidIdMigration, CFcatList, hflag, updateCategoryIDs]

/-- A failing category-ID update: the raw error is returned, no rollback
is performed. -/
theorem runCat_catUpdate (e : String) (gen : String → Nat → String) (ctr : Nat) (db : DB)
    (k : Nat)
    (hflag : parseBoolOrFalse (GetSystemSetting db.settings CategoryUUIDIDMigrationKey)
      = false)
    (hk : k < (catSigma gen ctr db).length) :
    (runCategoryUuidIdMigration (CFcatUpdate k e) gen ctr db).res = some e ∧
    (runCategoryUuidIdMigration (CFcatUpdate k e) gen ctr db).db = db ∧
    (runCategoryUuidIdMigration (CFcatUpdate k e) gen ctr db).txOpened = true ∧
    (runCategoryUuidIdMigration (CFcatUpdate k e) gen ctr db).committed = false ∧
    (runCategoryUuidIdMigration (CFcatUpdate k e) gen ctr db).rolledBack = false := by
  rcases hbm : buildIDMap gen (getIDs db.categories (fun c => c.id)) ctr with ⟨m, c⟩
  have hmlen : k < m.length := by
    have : m = (buildIDMap gen (getIDs db.categories (fun c => c.id)) ctr).1 := by rw [hbm]
    rw [this]
    exact hk
  rcases hau : applyCategoryUpdates (some (k, e)) m db.categories db.categoryBlocks 0
    with ⟨r, q⟩
  have h1 : r = Except.error e := by
    have h2 := applyCategoryUpdates_fail e m db.categories db.categoryBlocks 0 k hmlen
    rw [Nat.zero_add, hau] at h2
    exact h2
  simp [runCategoryUuidIdMigration, CFcatUpdate, hflag, updateCategoryIDs, hbm, hau, h1]

/-- A failing category-blocks listing: the raw error is returned, no
rollback is performed. -/
theorem runCat_cbList (e : String) (gen : String → Nat → String) (ctr : Nat) (db : DB)
    (hflag : parseBoolOrFalse (GetSystemSetting db.settings CategoryUUIDIDMigrationKey)
      = false) :
    (runCategoryUuidIdMigration (CFcbList e) gen ctr db).res = some e ∧
    (runCategoryUuidIdMigration (CFcbList e) gen ctr db).db = db ∧
    (runCategoryUuidIdMigration (CFcbList e) gen ctr db).txOpened = true ∧
    (runCategoryUuidIdMigration (CFcbList e) gen ctr db).committed = false ∧
    (runCategoryUuidIdMigration (CFcbList e) gen ctr db).rolledBack = false := by
  simp [runCategoryUuidIdMigration, CFcbList, hflag, updateCategoryIDs_none_eq,
    updateCategoryBlocksIDs]

theorem updateCategoryBlocksIDs_updErr (gen : String → Nat → String) (e : String) (k : Nat)
    (cbs : List CategoryBlock) (ctr : Nat)
    (hk : k < (buildIDMap gen (getIDs cbs (fun cb => cb.id)) ctr).1.length) :
    (updateCategoryBlocksIDs gen none (some (k, e)) cbs ctr).1 = Except.error e := by
  rcases hbm : buildIDMap gen (getIDs cbs (fun cb => cb.id)) ctr with ⟨m, c⟩
  have hmlen : k < m.length := by
    have h3 : m = (buildIDMap gen (getIDs cbs (fun cb => cb.id)) ctr).1 := by rw [hbm]
    rw [h3]
    exact hk
  rcases hau : applyCategoryBlocksUpdates (some (k, e)) m cbs 0 with ⟨r, q⟩
  have h1 : r = Except.error e := by
    have h2 := applyCategoryBlocksUpdates_fail e m cbs 0 k hmlen
    rw [Nat.zero_add, hau] at h2
    exact h2
  simp [updateCategoryBlocksIDs, hbm, hau, h1]

/-- A failing category-blocks-ID update: the raw error is returned, no
rollback is performed. -/
theorem runCat_cbUpdate (e : String) (gen : String → Nat → String) (ctr : Nat) (db : DB)
    (k : Nat)
    (hflag : parseBoolOrFalse (GetSystemSetting db.settings CategoryUUIDIDMigrationKey)
      = false)
    (hk : k < (cbSigma gen ctr db).length) :
    (runCategoryUuidIdMigration (CFcbUpdate k e) gen ctr db).res = some e ∧
    (runCategoryUuidIdMigration (CFcbUpdate k e) gen ctr db).db = db ∧
    (runCategoryUuidIdMigration (CFcbUpdate k e) gen ctr db).txOpened = true ∧
    (runCategoryUuidIdMigration (CFcbUpdate k e) gen ctr db).committed = false ∧
    (runCategoryUuidIdMigration (CFcbUpdate k e) gen ctr db).rolledBack = false := by
  have hids : getIDs (applyMapField (fun cb => cb.categoryID) (fun cb v => ⟨cb.id, v⟩)
      (buildIDMap gen (getIDs db.categories (fun c => c.id)) ctr).1 db.categoryBlocks)
      (fun cb => cb.id) = getIDs db.categoryBlocks (fun cb => cb.id) :=
    applyMapField_fk_preserves_ids _ db.categoryBlocks
  rcases hub : updateCategoryBlocksIDs gen none (some (k, e))
      (applyMapField (fun cb => cb.categoryID) (fun cb v => ⟨cb.id, v⟩)
        (buildIDMap gen (getIDs db.categories (fun c => c.id)) ctr).1 db.categoryBlocks)
      (ctr + db.categories.length) with ⟨r2, c2, q2⟩
  have hk2 : k < (buildIDMap gen (getIDs (applyMapField (fun cb => cb.categoryID)
      (fun cb v => ⟨cb.id, v⟩)
      (buildIDMap gen (getIDs db.categories (fun c => c.id)) ctr).1 db.categoryBlocks)
      (fun cb => cb.id)) (ctr + db.categories.length)).1.length := by
    rw [hids]
    exact hk
  have hr2 : r2 = Except.error e := by
    have h3 := updateCategoryBlocksIDs_updErr gen e k _ (ctr + db.categories.length) hk2
    rw [hub] at h3
    exact h3
  simp [runCategoryUuidIdMigration, CFcbUpdate, hflag, updateCategoryIDs_none_eq, hub, hr2]

theorem runCat_setSetting (e : String) (gen : String → Nat → String) (ctr : Nat) (db : DB)
    (hflag : parseBoolOrFalse (GetSystemSetting db.settings CategoryUUIDIDMigrationKey)
      = false) :
    (runCategoryUuidIdMigration (CFsetSetting e) gen ctr db).res =
      some ("cannot mark migration as completed: " ++ e) ∧
    (runCategoryUuidIdMigration (CFsetSetting e) gen ctr db).db = db ∧
    (runCategoryUuidIdMigration (CFsetSetting e) gen ctr db).txOpened = true ∧
    (runCategoryUuidIdMigration (CFsetSetting e) gen ctr db).committed = false ∧
    (runCategoryUuidIdMigration (CFsetSetting e) gen ctr db).rolledBack = true := by
  simp [runCategoryUuidIdMigration, CFsetSetting, hflag, updateCategoryIDs_none_eq,
    updateCategoryBlocksIDs_none_eq]

theorem runCat_commit (e : String) (gen : String → Nat → String) (ctr : Nat) (db : DB)
    (hflag : parseBoolOrFalse (GetSystemSetting db.settings CategoryUUIDIDMigrationKey)
      = false) :
    (runCategoryUuidIdMigration (CFcommit e) gen ctr db).res =
      some ("cannot commit category IDs transaction: " ++ e) ∧
    (runCategoryUuidIdMigration (CFcommit e) gen ctr db).db = db ∧
    (runCategoryUuidIdMigration (CFcommit e) gen ctr db).txOpened = true ∧
    (runCategoryUuidIdMigration (CFcommit e) gen ctr db).committed = false ∧
    (runCategoryUuidIdMigration (CFcommit e) gen ctr db).rolledBack = false := by
  simp [runCategoryUuidIdMigration, CFcommit, hflag, updateCategoryIDs_none_eq,
    updateCategoryBlocksIDs_none_eq]

theorem parseBoolOrFalse_eq_false_iff (s : String) :
    parseBoolOrFalse s = false ↔ parseBool s ≠ some true := by
  unfold parseBoolOrFalse
  rcases h : parseBool s with _ | b
  · simp
  · cases b <;> simp

theorem getSystemSetting_set (settings : List (String × String)) (key v : String) :
    GetSystemSetting (setSystemSetting settings key v) key = v := by
  unfold GetSystemSetting setSystemSetting
  rw [mapAssign_find_self]

theorem runU_flagTrue (F : UniqueFaults) (gen : String → Nat → String) (ctr : Nat) (db : DB)
    (hg : F.gateErr = none) (hgs : F.getSettingErr = none)
    (h : parseBoolOrFalse (GetSystemSetting db.settings UniqueIDsMigrationKey) = true) :
    runUniqueIDsMigration F gen ctr db = ⟨none, db, false, false, false, ctr, 0⟩ := by
  rcases F with ⟨g, gs, bt, sc, re, ss, cm⟩
  simp only at hg hgs
  subst hg
  subst hgs
  simp [runUniqueIDsMigration, h]

theorem runCat_flagTrue (F : CatFaults) (gen : String → Nat → String) (ctr : Nat) (db : DB)
    (hg : F.gateErr = none) (hgs : F.getSettingErr = none)
    (h : parseBoolOrFalse (GetSystemSetting db.settings CategoryUUIDIDMigrationKey) = true) :
    runCategoryUuidIdMigration F gen ctr db = ⟨none, db, false, false, false, ctr, 0⟩ := by
  rcases F with ⟨g, gs, bt, cl, cu, bl, bu, ss, cm⟩
  simp only at hg hgs
  subst hg
  subst hgs
  simp [runCategoryUuidIdMigration, h]

/-- C1 (amended): on a run that has opened a transaction, every error
return leaves the visible database (owner table, dependent tables and
completion flag) unchanged, but the rollback choreography differs
between the two migrations: the unique-IDs migration calls rollback on
every pre-commit in-transaction failure (scan, replacement, flag write),
while the category migration calls rollback only on a failing
completion-flag write — a failing category listing or update step is
returned without any rollback call, leaving the transaction open. -/
theorem c1_rollback_behavior (gen : String → Nat → String) (ctr : Nat) (db : DB)
    (e : String) (k1 k2 k3 : Nat)
    (hflagU : parseBoolOrFalse (GetSystemSetting db.settings UniqueIDsMigrationKey) = false)
    (hflagC : parseBoolOrFalse (GetSystemSetting db.settings CategoryUUIDIDMigrationKey)
      = false)
    (hk1 : k1 < (uniqueIDsTargets (getBlocksWithSameID db.blocks)).length)
    (hk2 : k2 < (catSigma gen ctr db).length)
    (hk3 : k3 < (cbSigma gen ctr db).length) :
    ((runUniqueIDsMigration (UFscan e) gen ctr db).res.isSome ∧
      (runUniqueIDsMigration (UFscan e) gen ctr db).rolledBack = true ∧
      (runUniqueIDsMigration (UFscan e) gen ctr db).db = db ∧
      parseBoolOrFalse (GetSystemSetting
        (runUniqueIDsMigration (UFscan e) gen ctr db).db.settings UniqueIDsMigrationKey)
        = false) ∧
    ((runUniqueIDsMigration (UFreplace k1 e) gen ctr db).res.isSome ∧
      (runUniqueIDsMigration (UFreplace k1 e) gen ctr db).rolledBack = true ∧
      (runUniqueIDsMigration (UFreplace k1 e) gen ctr db).db = db) ∧
    ((runUniqueIDsMigration (UFsetSetting e) gen ctr db).res.isSome ∧
      (runUniqueIDsMigration (UFsetSetting e) gen ctr db).rolledBack = true ∧
      (runUniqueIDsMigration (UFsetSetting e) gen ctr db).db = db) ∧
    ((runCategoryUuidIdMigration (CFsetSetting e) gen ctr db).res.isSome ∧
      (runCategoryUuidIdMigration (CFsetSetting e) gen ctr db).rolledBack = true ∧
      (runCategoryUuidIdMigration (CFsetSetting e) gen ctr db).db = db) ∧
    ((runCategoryUuidIdMigration (CFcatList e) gen ctr db).res = some e ∧
      (runCategoryUuidIdMigration (CFcatList e) gen ctr db).txOpened = true ∧
      (runCategoryUuidIdMigration (CFcatList e) gen ctr db).rolledBack = false ∧
      (runCategoryUuidIdMigration (CFcatList e) gen ctr db).db = db ∧
      parseBoolOrFalse (GetSystemSetting
        (runCategoryUuidIdMigration (CFcatList e) gen ctr db).db.settings
        CategoryUUIDIDMigrationKey) = false) ∧
    ((runCategoryUuidIdMigration (CFcatUpdate k2 e) gen ctr db).res = some e ∧
      (runCategoryUuidIdMigration (CFcatUpdate k2 e) gen ctr db).txOpened = true ∧
      (runCategoryUuidIdMigration (CFcatUpdate k2 e) gen ctr db).rolledBack = false ∧
      (runCategoryUuidIdMigration (CFcatUpdate k2 e) gen ctr db).db = db) ∧
    ((runCategoryUuidIdMigration (CFcbList e) gen ctr db).res = some e ∧
      (runCategoryUuidIdMigration (CFcbList e) gen ctr db).txOpened = true ∧
      (runCategoryUuidIdMigration (CFcbList e) gen ctr db).rolledBack = false ∧
      (runCategoryUuidIdMigration (CFcbList e) gen ctr db).db = db) ∧
    ((runCategoryUuidIdMigration (CFcbUpdate k3 e) gen ctr db).res = some e ∧
      (runCategoryUuidIdMigration (CFcbUpdate k3 e) gen ctr db).txOpened = true ∧
      (runCategoryUuidIdMigration (CFcbUpdate k3 e) gen ctr db).rolledBack = false ∧
      (runCategoryUuidIdMigration (CFcbUpdate k3 e) gen ctr db).db = db) := by
  refine ⟨?_, ?_, ?_, ?_, ?_, ?_, ?_, ?_⟩
  · rw [runU_scan e gen ctr db hflagU]
    exact ⟨rfl, rfl, rfl, hflagU⟩
  · obtain ⟨h1, h2, h3, h4, h5⟩ := runU_replace e gen ctr db k1 hflagU hk1
    exact ⟨by rw [h1]; rfl, h5, h2⟩
  · rw [runU_setSetting e gen ctr db hflagU]
    exact ⟨rfl, rfl, rfl⟩
  · obtain ⟨h1, h2, h3, h4, h5⟩ := runCat_setSetting e gen ctr db hflagC
    exact ⟨by rw [h1]; rfl, h5, h2⟩
  · rw [runCat_catList e gen ctr db hflagC]
    exact ⟨rfl, rfl, rfl, rfl, hflagC⟩
  · obtain ⟨h1, h2, h3, h4, h5⟩ := runCat_catUpdate e gen ctr db k2 hflagC hk2
    exact ⟨h1, h3, h5, h2⟩
  · obtain ⟨h1, h2, h3, h4, h5⟩ := runCat_cbList e gen ctr db hflagC
    exact ⟨h1, h3, h5, h2⟩
  · obtain ⟨h1, h2, h3, h4, h5⟩ := runCat_cbUpdate e gen ctr db k3 hflagC hk3
    exact ⟨h1, h3, h5, h2⟩

/-- C1 counterexample: in the category migration a failing category-ID
listing is returned (unwrapped) with no rollback call, refuting "the
transaction is rolled back before the error is returned" for every
failing step. -/
theorem c1_counterexample :
    (runCategoryUuidIdMigration (CFcatList "listing failed") (fun _ _ => "x") 0
      ⟨[], [⟨"c1"⟩], [⟨"d1", "c1"⟩], []⟩).res = some "listing failed" ∧
    (runCategoryUuidIdMigration (CFcatList "listing failed") (fun _ _ => "x") 0
      ⟨[], [⟨"c1"⟩], [⟨"d1", "c1"⟩], []⟩).txOpened = true ∧
    (runCategoryUuidIdMigration (CFcatList "listing failed") (fun _ _ => "x") 0
      ⟨[], [⟨"c1"⟩], [⟨"d1", "c1"⟩], []⟩).rolledBack = false := by
  refine ⟨by decide, by decide, by decide⟩

/-- C1 witness: the hypotheses of the amended theorem hold at a concrete
database with one duplicate pair, one category and one dependent row. -/
theorem c1_witness :
    (0 < (uniqueIDsTargets (getBlocksWithSameID
      (⟨[⟨"a", "w1", "card"⟩, ⟨"a", "w2", "card"⟩], [⟨"c1"⟩], [⟨"d1", "c1"⟩],
        []⟩ : DB).blocks)).length) ∧
    (runUniqueIDsMigration (UFscan "boom") (fun _ _ => "x") 0
      ⟨[⟨"a", "w1", "card"⟩, ⟨"a", "w2", "card"⟩], [⟨"c1"⟩], [⟨"d1", "c1"⟩], []⟩).rolledBack
      = true ∧
    (runCategoryUuidIdMigration (CFcatUpdate 0 "boom") (fun _ _ => "x") 0
      ⟨[⟨"a", "w1", "card"⟩, ⟨"a", "w2", "card"⟩], [⟨"c1"⟩], [⟨"d1", "c1"⟩], []⟩).rolledBack
      = false := by
  have h := c1_rollback_behavior (fun _ _ => "x") 0
    ⟨[⟨"a", "w1", "card"⟩, ⟨"a", "w2", "card"⟩], [⟨"c1"⟩], [⟨"d1", "c1"⟩], []⟩ "boom" 0 0 0
    (by decide) (by decide) (by decide) (by decide) (by decide)
  exact ⟨by decide, h.1.2.1, h.2.2.2.2.2.1.2.2.1⟩

/-- C2: each migration is idempotent: when its completion flag already
reads true the run returns success immediately with no transaction, zero
queries against the owner or dependent tables and an unchanged database;
and a second fault-free run after a first one is such a no-op, so
running twice equals running once. -/
theorem c2_idempotence (gen gen2 : String → Nat → String) (ctr ctr2 : Nat) (db : DB) :
    (∀ F : UniqueFaults, F.gateErr = none → F.getSettingErr = none →
      parseBoolOrFalse (GetSystemSetting db.settings UniqueIDsMigrationKey) = true →
      runUniqueIDsMigration F gen ctr db = ⟨none, db, false, false, false, ctr, 0⟩) ∧
    (∀ F : CatFaults, F.gateErr = none → F.getSettingErr = none →
      parseBoolOrFalse (GetSystemSetting db.settings CategoryUUIDIDMigrationKey) = true →
      runCategoryUuidIdMigration F gen ctr db = ⟨none, db, false, false, false, ctr, 0⟩) ∧
    ((runUniqueIDsMigration UFnone gen ctr db).res = none ∧
      runUniqueIDsMigration UFnone gen2 ctr2 ((runUniqueIDsMigration UFnone gen ctr db).db) =
        ⟨none, (runUniqueIDsMigration UFnone gen ctr db).db, false, false, false, ctr2, 0⟩) ∧
    ((runCategoryUuidIdMigration CFnone gen ctr db).res = none ∧
      runCategoryUuidIdMigration CFnone gen2 ctr2
          ((runCategoryUuidIdMigration CFnone gen ctr db).db) =
        ⟨none, (runCategoryUuidIdMigration CFnone gen ctr db).db, false, false, false,
         ctr2, 0⟩) := by
  refine ⟨fun F hg hgs h => runU_flagTrue F gen ctr db hg hgs h,
    fun F hg hgs h => runCat_flagTrue F gen ctr db hg hgs h, ?_, ?_⟩
  · by_cases hf : parseBoolOrFalse (GetSystemSetting db.settings UniqueIDsMigrationKey)
      = true
    · rw [runU_flagTrue UFnone gen ctr db rfl rfl hf]
      exact ⟨rfl, runU_flagTrue UFnone gen2 ctr2 db rfl rfl hf⟩
    · have hff : parseBoolOrFalse (GetSystemSetting db.settings UniqueIDsMigrationKey)
          = false := by
        revert hf
        cases parseBoolOrFalse (GetSystemSetting db.settings UniqueIDsMigrationKey) <;> simp
      rw [runU_none_raw gen ctr db hff]
      refine ⟨rfl, ?_⟩
      apply runU_flagTrue UFnone gen2 ctr2 _ rfl rfl
      show parseBoolOrFalse (GetSystemSetting
        (setSystemSetting db.settings UniqueIDsMigrationKey "true")
        UniqueIDsMigrationKey) = true
      rw [getSystemSetting_set]
      rfl
  · by_cases hf : parseBoolOrFalse (GetSystemSetting db.settings CategoryUUIDIDMigrationKey)
      = true
    · rw [runCat_flagTrue CFnone gen ctr db rfl rfl hf]
      exact ⟨rfl, runCat_flagTrue CFnone gen2 ctr2 db rfl rfl hf⟩
    · have hff : parseBoolOrFalse (GetSystemSetting db.settings CategoryUUIDIDMigrationKey)
          = false := by
        revert hf
        cases parseBoolOrFalse (GetSystemSetting db.settings CategoryUUIDIDMigrationKey) <;>
          simp
      rw [runCat_none_success gen ctr db hff]
      refine ⟨rfl, ?_⟩
      apply runCat_flagTrue CFnone gen2 ctr2 _ rfl rfl
      show parseBoolOrFalse (GetSystemSetting
        (setSystemSetting db.settings CategoryUUIDIDMigrationKey "true")
        CategoryUUIDIDMigrationKey) = true
      rw [getSystemSetting_set]
      rfl

/-- C2 witness: a database whose unique-IDs flag stores `"true"`
short-circuits the fault-free run: success, no transaction, no queries,
database unchanged. -/
theorem c2_witness :
    parseBoolOrFalse (GetSystemSetting
      ([(UniqueIDsMigrationKey, "true")] : List (String × String)) UniqueIDsMigrationKey)
      = true ∧
    runUniqueIDsMigration UFnone (fun _ _ => "x") 0
      ⟨[⟨"a", "w1", "card"⟩], [], [], [(UniqueIDsMigrationKey, "true")]⟩ =
      ⟨none, ⟨[⟨"a", "w1", "card"⟩], [], [], [(UniqueIDsMigrationKey, "true")]⟩,
       false, false, false, 0, 0⟩ := by
  refine ⟨by decide, ?_⟩
  exact (c2_idempotence (fun _ _ => "x") (fun _ _ => "x") 0 0
    ⟨[⟨"a", "w1", "card"⟩], [], [], [(UniqueIDsMigrationKey, "true")]⟩).1 UFnone rfl rfl
    (by decide)

/-- C7 (amended): no failure is swallowed — an error injected at any
step surfaces in the migration's return value — but wrapping is partial:
the unique-IDs migration wraps the get-state, scan, replacement (with
the offending block identifier), flag-write and commit errors while
returning gate and begin-transaction errors unchanged, and the category
migration additionally returns its listing and update step errors
unchanged. -/
theorem c7_error_propagation (gen : String → Nat → String) (ctr : Nat) (db : DB)
    (e : String) (k1 k2 k3 : Nat)
    (hflagU : parseBoolOrFalse (GetSystemSetting db.settings UniqueIDsMigrationKey) = false)
    (hflagC : parseBoolOrFalse (GetSystemSetting db.settings CategoryUUIDIDMigrationKey)
      = false)
    (hk1 : k1 < (uniqueIDsTargets (getBlocksWithSameID db.blocks)).length)
    (hk2 : k2 < (catSigma gen ctr db).length)
    (hk3 : k3 < (cbSigma gen ctr db).length) :
    ((runUniqueIDsMigration (UFgate e) gen ctr db).res = some e) ∧
    ((runUniqueIDsMigration (UFgetSetting e) gen ctr db).res =
      some ("cannot get migration state: " ++ e)) ∧
    ((runUniqueIDsMigration (UFbeginTx e) gen ctr db).res = some e) ∧
    ((runUniqueIDsMigration (UFscan e) gen ctr db).res =
      some ("cannot get blocks with same ID: " ++ e)) ∧
    ((runUniqueIDsMigration (UFreplace k1 e) gen ctr db).res =
      some ("cannot replace blockID " ++
        ((uniqueIDsTargets (getBlocksWithSameID db.blocks)).get ⟨k1, hk1⟩).id ++ ": " ++ e)) ∧
    ((runUniqueIDsMigration (UFsetSetting e) gen ctr db).res =
      some ("cannot mark migration as completed: " ++ e)) ∧
    ((runUniqueIDsMigration (UFcommit e) gen ctr db).res =
      some ("cannot commit unique IDs transaction: " ++ e)) ∧
    ((runCategoryUuidIdMigration (CFgate e) gen ctr db).res = some e) ∧
    ((runCategoryUuidIdMigration (CFgetSetting e) gen ctr db).res =
      some ("cannot get migration state: " ++ e)) ∧
    ((runCategoryUuidIdMigration (CFbeginTx e) gen ctr db).res = some e) ∧
    ((runCategoryUuidIdMigration (CFcatList e) gen ctr db).res = some e) ∧
    ((runCategoryUuidIdMigration (CFcatUpdate k2 e) gen ctr db).res = some e) ∧
    ((runCategoryUuidIdMigration (CFcbList e) gen ctr db).res = some e) ∧
    ((runCategoryUuidIdMigration (CFcbUpdate k3 e) gen ctr db).res = some e) ∧
    ((runCategoryUuidIdMigration (CFsetSetting e) gen ctr db).res =
      some ("cannot mark migration as completed: " ++ e)) ∧
    ((runCategoryUuidIdMigration (CFcommit e) gen ctr db).res =
      some ("cannot commit category IDs transaction: " ++ e)) := by
  refine ⟨by rw [runU_gate], by rw [runU_getSetting], by rw [runU_beginTx e gen ctr db hflagU],
    by rw [runU_scan e gen ctr db hflagU], (runU_replace e gen ctr db k1 hflagU hk1).1,
    by rw [runU_setSetting e gen ctr db hflagU], by rw [runU_commit e gen ctr db hflagU],
    by rw [runCat_gate], by rw [runCat_getSetting],
    by rw [runCat_beginTx e gen ctr db hflagC], by rw [runCat_catList e gen ctr db hflagC],
    (runCat_catUpdate e gen ctr db k2 hflagC hk2).1, (runCat_cbList e gen ctr db hflagC).1,
    (runCat_cbUpdate e gen ctr db k3 hflagC hk3).1,
    (runCat_setSetting e gen ctr db hflagC).1, (runCat_commit e gen ctr db hflagC).1⟩

/-- C7 counterexample: a failing BeginTx in the unique-IDs migration is
returned exactly as produced — no step name, no identifier — refuting
"every failure is wrapped with the name of the failing step". -/
theorem c7_counterexample :
    (runUniqueIDsMigration (UFbeginTx "tx failed") (fun _ _ => "x") 0
      ⟨[⟨"a", "w1", "card"⟩], [], [], []⟩).res = some "tx failed" := by
  decide

/-- C7 witness: the amended theorem applies at a concrete database with
one duplicate pair, one category and one dependent row. -/
theorem c7_witness :
    (0 < (uniqueIDsTargets (getBlocksWithSameID
      ([⟨"a", "w1", "card"⟩, ⟨"a", "w2", "card"⟩] : List Block))).length) ∧
    (runCategoryUuidIdMigration (CFcatList "boom") (fun _ _ => "x") 0
      ⟨[⟨"a", "w1", "card"⟩, ⟨"a", "w2", "card"⟩], [⟨"c1"⟩], [⟨"d1", "c1"⟩], []⟩).res =
      some "boom" := by
  have h := c7_error_propagation (fun _ _ => "x") 0
    ⟨[⟨"a", "w1", "card"⟩, ⟨"a", "w2", "card"⟩], [⟨"c1"⟩], [⟨"d1", "c1"⟩], []⟩ "boom" 0 0 0
    (by decide) (by decide) (by decide) (by decide) (by decide)
  exact ⟨by decide, h.2.2.2.2.2.2.2.2.2.2.1⟩

/-- C8: an absent completion-flag key and a malformed stored value are
both treated as "not completed" — the migration proceeds instead of
returning a failure — and only a value `strconv.ParseBool` accepts as
true short-circuits the run. -/
theorem c8_flag_reading (gen : String → Nat → String) (ctr : Nat) (db : DB) :
    (db.settings.find? (fun p => p.1 = UniqueIDsMigrationKey) = none →
      (runUniqueIDsMigration UFnone gen ctr db).res = none ∧
      (runUniqueIDsMigration UFnone gen ctr db).txOpened = true) ∧
    (parseBool (GetSystemSetting db.settings UniqueIDsMigrationKey) = none →
      (runUniqueIDsMigration UFnone gen ctr db).res = none ∧
      (runUniqueIDsMigration UFnone gen ctr db).txOpened = true) ∧
    (parseBool (GetSystemSetting db.settings UniqueIDsMigrationKey) = some true →
      runUniqueIDsMigration UFnone gen ctr db = ⟨none, db, false, false, false, ctr, 0⟩) ∧
    (parseBool (GetSystemSetting db.settings UniqueIDsMigrationKey) ≠ some true →
      (runUniqueIDsMigration UFnone gen ctr db).txOpened = true) ∧
    (db.settings.find? (fun p => p.1 = CategoryUUIDIDMigrationKey) = none →
      (runCategoryUuidIdMigration CFnone gen ctr db).res = none ∧
      (runCategoryUuidIdMigration CFnone gen ctr db).txOpened = true) ∧
    (parseBool (GetSystemSetting db.settings CategoryUUIDIDMigrationKey) = none →
      (runCategoryUuidIdMigration CFnone gen ctr db).res = none ∧
      (runCategoryUuidIdMigration CFnone gen ctr db).txOpened = true) ∧
    (parseBool (GetSystemSetting db.settings CategoryUUIDIDMigrationKey) = some true →
      runCategoryUuidIdMigration CFnone gen ctr db =
        ⟨none, db, false, false, false, ctr, 0⟩) ∧
    (parseBool (GetSystemSetting db.settings CategoryUUIDIDMigrationKey) ≠ some true →
      (runCategoryUuidIdMigration CFnone gen ctr db).txOpened = true) := by
  have hfalseU : parseBool (GetSystemSetting db.settings UniqueIDsMigrationKey) ≠ some true →
      parseBoolOrFalse (GetSystemSetting db.settings UniqueIDsMigrationKey) = false := by
    intro h
    exact (parseBoolOrFalse_eq_false_iff _).mpr h
  have hfalseC : parseBool (GetSystemSetting db.settings CategoryUUIDIDMigrationKey)
      ≠ some true →
      parseBoolOrFalse (GetSystemSetting db.settings CategoryUUIDIDMigrationKey) = false := by
    intro h
    exact (parseBoolOrFalse_eq_false_iff _).mpr h
  refine ⟨?_, ?_, ?_, ?_, ?_, ?_, ?_, ?_⟩
  · intro habs
    have hget : GetSystemSetting db.settings UniqueIDsMigrationKey = "" := by
      unfold GetSystemSetting
      rw [habs]
    have hff := hfalseU (by rw [hget]; decide)
    rw [runU_none_raw gen ctr db hff]
    exact ⟨rfl, rfl⟩
  · intro hmal
    have hff := hfalseU (by rw [hmal]; decide)
    rw [runU_none_raw gen ctr db hff]
    exact ⟨rfl, rfl⟩
  · intro htrue
    refine runU_flagTrue UFnone gen ctr db rfl rfl ?_
    unfold parseBoolOrFalse
    rw [htrue]
    rfl
  · intro hne
    rw [runU_none_raw gen ctr db (hfalseU hne)]
  · intro habs
    have hget : GetSystemSetting db.settings CategoryUUIDIDMigrationKey = "" := by
      unfold GetSystemSetting
      rw [habs]
    have hff := hfalseC (by rw [hget]; decide)
    rw [runCat_none_success gen ctr db hff]
    exact ⟨rfl, rfl⟩
  · intro hmal
    have hff := hfalseC (by rw [hmal]; decide)
    rw [runCat_none_success gen ctr db hff]
    exact ⟨rfl, rfl⟩
  · intro htrue
    refine runCat_flagTrue CFnone gen ctr db rfl rfl ?_
    unfold parseBoolOrFalse
    rw [htrue]
    rfl
  · intro hne
    rw [runCat_none_success gen ctr db (hfalseC hne)]

/-- C8 witness: with a malformed stored value the unique-IDs migration
proceeds (opens a transaction and succeeds), and with the stored value
"true" it short-circuits. -/
theorem c8_witness :
    parseBool (GetSystemSetting
      ([(UniqueIDsMigrationKey, "garbage")] : List (String × String))
      UniqueIDsMigrationKey) = none ∧
    (runUniqueIDsMigration UFnone (fun _ _ => "x") 0
      ⟨[], [], [], [(UniqueIDsMigrationKey, "garbage")]⟩).txOpened = true := by
  refine ⟨by decide, ?_⟩
  exact ((c8_flag_reading (fun _ _ => "x") 0
    ⟨[], [], [], [(UniqueIDsMigrationKey, "garbage")]⟩).2.1 (by decide)).2

/-- C10 (amended): a failing commit makes both migrations return the
wrapped "cannot commit" error without any rollback call; in the
unique-IDs migration commit is the only in-transaction failure point
without a rollback call, but in the category migration the category-ID
and category-blocks update phases also fail without one. -/
theorem c10_commit_no_rollback (gen : String → Nat → String) (ctr : Nat) (db : DB)
    (e : String) (k1 k2 k3 : Nat)
    (hflagU : parseBoolOrFalse (GetSystemSetting db.settings UniqueIDsMigrationKey) = false)
    (hflagC : parseBoolOrFalse (GetSystemSetting db.settings CategoryUUIDIDMigrationKey)
      = false)
    (hk1 : k1 < (uniqueIDsTargets (getBlocksWithSameID db.blocks)).length)
    (hk2 : k2 < (catSigma gen ctr db).length)
    (hk3 : k3 < (cbSigma gen ctr db).length) :
    ((runUniqueIDsMigration (UFcommit e) gen ctr db).res =
      some ("cannot commit unique IDs transaction: " ++ e) ∧
      (runUniqueIDsMigration (UFcommit e) gen ctr db).rolledBack = false ∧
      (runUniqueIDsMigration (UFcommit e) gen ctr db).committed = false ∧
      (runUniqueIDsMigration (UFcommit e) gen ctr db).txOpened = true) ∧
    ((runCategoryUuidIdMigration (CFcommit e) gen ctr db).res =
      some ("cannot commit category IDs transaction: " ++ e) ∧
      (runCategoryUuidIdMigration (CFcommit e) gen ctr db).rolledBack = false ∧
      (runCategoryUuidIdMigration (CFcommit e) gen ctr db).committed = false ∧
      (runCategoryUuidIdMigration (CFcommit e) gen ctr db).txOpened = true) ∧
    ((runUniqueIDsMigration (UFscan e) gen ctr db).rolledBack = true) ∧
    ((runUniqueIDsMigration (UFreplace k1 e) gen ctr db).rolledBack = true) ∧
    ((runUniqueIDsMigration (UFsetSetting e) gen ctr db).rolledBack = true) ∧
    ((runCategoryUuidIdMigration (CFcatList e) gen ctr db).rolledBack = false ∧
      (runCategoryUuidIdMigration (CFcatList e) gen ctr db).txOpened = true ∧
      (runCategoryUuidIdMigration (CFcatList e) gen ctr db).res.isSome) ∧
    ((runCategoryUuidIdMigration (CFcatUpdate k2 e) gen ctr db).rolledBack = false ∧
      (runCategoryUuidIdMigration (CFcatUpdate k2 e) gen ctr db).res.isSome) ∧
    ((runCategoryUuidIdMigration (CFcbList e) gen ctr db).rolledBack = false ∧
      (runCategoryUuidIdMigration (CFcbList e) gen ctr db).res.isSome) ∧
    ((runCategoryUuidIdMigration (CFcbUpdate k3 e) gen ctr db).rolledBack = false ∧
      (runCategoryUuidIdMigration (CFcbUpdate k3 e) gen ctr db).res.isSome) ∧
    ((runCategoryUuidIdMigration (CFsetSetting e) gen ctr db).rolledBack = true) := by
  obtain ⟨c1, c2, c3, c4, c5⟩ := runCat_commit e gen ctr db hflagC
  refine ⟨?_, ⟨c1, c5, c4, c3⟩, ?_, ?_, ?_, ?_, ?_, ?_, ?_, ?_⟩
  · rw [runU_commit e gen ctr db hflagU]
    exact ⟨rfl, rfl, rfl, rfl⟩
  · rw [runU_scan e gen ctr db hflagU]
  · exact (runU_replace e gen ctr db k1 hflagU hk1).2.2.2.2
  · rw [runU_setSetting e gen ctr db hflagU]
  · rw [runCat_catList e gen ctr db hflagC]
    exact ⟨rfl, rfl, rfl⟩
  · obtain ⟨h1, h2, h3, h4, h5⟩ := runCat_catUpdate e gen ctr db k2 hflagC hk2
    exact ⟨h5, by rw [h1]; rfl⟩
  · obtain ⟨h1, h2, h3, h4, h5⟩ := runCat_cbList e gen ctr db hflagC
    exact ⟨h5, by rw [h1]; rfl⟩
  · obtain ⟨h1, h2, h3, h4, h5⟩ := runCat_cbUpdate e gen ctr db k3 hflagC hk3
    exact ⟨h5, by rw [h1]; rfl⟩
  · exact (runCat_setSetting e gen ctr db hflagC).2.2.2.2

/-- C10 counterexample: a failing category-blocks listing — not the
commit step — returns its error with the transaction open and no
rollback call, refuting "the commit step is the only failure point
inside the transaction for which no rollback call is made". -/
theorem c10_counterexample :
    (runCategoryUuidIdMigration (CFcbList "cb listing failed") (fun _ _ => "x") 0
      ⟨[], [⟨"c1"⟩], [⟨"d1", "c1"⟩], []⟩).res = some "cb listing failed" ∧
    (runCategoryUuidIdMigration (CFcbList "cb listing failed") (fun _ _ => "x") 0
      ⟨[], [⟨"c1"⟩], [⟨"d1", "c1"⟩], []⟩).txOpened = true ∧
    (runCategoryUuidIdMigration (CFcbList "cb listing failed") (fun _ _ => "x") 0
      ⟨[], [⟨"c1"⟩], [⟨"d1", "c1"⟩], []⟩).committed = false ∧
    (runCategoryUuidIdMigration (CFcbList "cb listing failed") (fun _ _ => "x") 0
      ⟨[], [⟨"c1"⟩], [⟨"d1", "c1"⟩], []⟩).rolledBack = false := by
  refine ⟨by decide, by decide, by decide, by decide⟩

/-- C10 witness: the amended theorem applies at a concrete database with
one duplicate pair, one category and one dependent row. -/
theorem c10_witness :
    (0 < (catSigma (fun _ _ => "x") 0
      ⟨[⟨"a", "w1", "card"⟩, ⟨"a", "w2", "card"⟩], [⟨"c1"⟩], [⟨"d1", "c1"⟩], []⟩).length) ∧
    (runUniqueIDsMigration (UFcommit "boom") (fun _ _ => "x") 0
      ⟨[⟨"a", "w1", "card"⟩, ⟨"a", "w2", "card"⟩], [⟨"c1"⟩], [⟨"d1", "c1"⟩], []⟩).rolledBack
      = false := by
  have h := c10_commit_no_rollback (fun _ _ => "x") 0
    ⟨[⟨"a", "w1", "card"⟩, ⟨"a", "w2", "card"⟩], [⟨"c1"⟩], [⟨"d1", "c1"⟩], []⟩ "boom" 0 0 0
    (by decide) (by decide) (by decide) (by decide) (by decide)
  exact ⟨by decide, h.1.2.1⟩


/-- C3 witness: the tie-break theorem applies to the duplicate group of
identifier "a" in the witness database. -/
theorem c3_witness :
    2 ≤ (grp dbW.blocks "a").length ∧
    ∃ r1 rs, grp dbW.blocks "a" = r1 :: rs ∧ r1.id = "a" ∧
      setBlockKey r1 (assocSubst (uniqueSigma genW dbW.blocks 0) (blockKey r1)) = r1 := by
  have h := c3_tie_break genW 0 dbW "a" (by decide) (by unfold KeysDistinct; decide)
    (by decide) (by decide) (by decide)
  obtain ⟨r1, rs, h1, h2, _, h4, _, _⟩ := h
  exact ⟨by decide, r1, rs, h1, h2, h4⟩

/-- C4 witness: after the fault-free run on the witness database no two
block rows share an identifier. -/
theorem c4_witness :
    2 ≤ (grp dbW.blocks "a").length ∧
    ((runUniqueIDsMigration UFnone genW 0 dbW).db.blocks.map (fun b => b.id)).Nodup := by
  exact ⟨by decide, c4_uniqueness_postcondition genW 0 dbW (by decide)
    (by unfold KeysDistinct; decide) (by decide) (by decide)⟩

/-- C5 witness: referential integrity holds before and after the
category migration on the witness database. -/
theorem c5_witness :
    (∀ cb ∈ dbW.categoryBlocks, ∃ c ∈ dbW.categories, cb.categoryID = c.id) ∧
    (∀ cb ∈ (runCategoryUuidIdMigration CFnone genW 0 dbW).db.categoryBlocks,
      ∃ c ∈ (runCategoryUuidIdMigration CFnone genW 0 dbW).db.categories,
        cb.categoryID = c.id) := by
  have h := c5_referential_integrity genW 0 dbW (by decide) (by decide) (by decide)
    (by decide)
  exact ⟨by decide, h.2.2.2⟩

/-- C6 witness: on the witness database the two mappings draw their new
identifiers from disjoint generated lists. -/
theorem c6_witness :
    (genListNone genW 0 (getIDs dbW.categories (fun c => c.id)).length ++
      genListNone genW (0 + dbW.categories.length)
        (getIDs dbW.categoryBlocks (fun cb => cb.id)).length).Nodup ∧
    (∀ v ∈ (catSigma genW 0 dbW).map (fun p => p.2),
      v ∉ (cbSigma genW 0 dbW).map (fun p => p.2)) := by
  have h := c6_independent_mappings genW 0 dbW (by decide) (by decide) (by decide)
    (by decide)
  exact ⟨by decide, h.1⟩

/-- C9 witness: on the witness database (whose category table lists
"c1" twice) the map is keyed per distinct identifier and the final
category identifiers are the mapping applied positionally. -/
theorem c9_witness :
    ((catSigma genW 0 dbW).map (fun p => p.1) =
      keysInOrder (getIDs dbW.categories (fun c => c.id))) ∧
    ((runCategoryUuidIdMigration CFnone genW 0 dbW).db.categories.map (fun c => c.id) =
      (dbW.categories.map (fun c => c.id)).map (assocSubst (catSigma genW 0 dbW))) := by
  have h := c9_same_old_same_new genW 0 dbW (by decide) (by decide)
  exact ⟨h.1, h.2.2.2.2.1⟩

end Focalboard
